import Mathlib

/-!
Task-edit client (`public/js/ethan.js`): validation, submit and tag widget.

A shallow embedding of the update module of the task board.  The module is one
closure (`initUpdateModule`) over a handful of DOM elements and the globals
`TaskState.selectedTask` / `TaskState.editTags`; here the closure variables and
the parts of the DOM the module reads or writes become an explicit state
record, the handlers become functions from a state to an outcome (new state,
the effects performed in order, and whether an exception escaped).

Conventions of the embedding:

* JavaScript strings are Lean strings; `.length` is the number of UTF-16 code
  units (`jsLength`).  Strings holding lone surrogates are not representable.
* What the host provides (`Date`, `JSON.parse`, `toLowerCase`, the helper
  `TaskHelpers.formatDateForInput`, which elements `getElementById` finds) is
  collected in `Env`; every general theorem holds for every `Env`.
* Form controls are plain string cells: reading `.value` gives back what was
  stored.

The namespace `Server` embeds the route `PUT /tasks/:id` of the coverage
server (`cypress-server.js`): the store is what one request reads and whether
its write fails, the handler a function to the response and the document
written.
-/

namespace TaskEdit

/-! ## Strings and arrays -/

/-- Number of UTF-16 code units of one code point. -/
def utf16Units (c : Char) : Nat :=
  if c.val.toNat < 0x10000 then 1 else 2

/-- The `length` property of a string: its number of UTF-16 code units. -/
def jsLength (s : String) : Nat :=
  (s.data.map utf16Units).sum

/-- Truthiness of a string value: every string but the empty one. -/
def truthy (s : String) : Bool :=
  s != ""

/-- Code points removed by `String.prototype.trim`: WhiteSpace and
LineTerminator of ECMAScript. -/
def isTrimChar (c : Char) : Bool :=
  let n := c.val.toNat
  n == 0x9 || n == 0xA || n == 0xB || n == 0xC || n == 0xD || n == 0x20 ||
  n == 0xA0 || n == 0x1680 || (0x2000 ≤ n && n ≤ 0x200A) || n == 0x2028 ||
  n == 0x2029 || n == 0x202F || n == 0x205F || n == 0x3000 || n == 0xFEFF

/-- The method `trim`: strips leading and trailing white space. -/
def jsTrim (s : String) : String :=
  String.mk ((((s.data.dropWhile isTrimChar).reverse).dropWhile isTrimChar).reverse)

/-- Scan of `Array.prototype.indexOf` from position `i` on. -/
def indexOfFrom (xs : List String) (v : String) (i : Int) : Int :=
  match xs with
  | [] => -1
  | x :: rest => if x = v then i else indexOfFrom rest v (i + 1)

/-- The method `indexOf` on an array of strings (strict equality): the first
index holding `v`, or `-1`. -/
def indexOf (xs : List String) (v : String) : Int :=
  indexOfFrom xs v 0

/-! ## Values that come out of `JSON.parse` -/

/-- A JavaScript value as `JSON.parse` builds it (numbers restricted to the
integers; object members in source order). -/
inductive Json where
  | null : Json
  | bool (b : Bool) : Json
  | num (n : Int) : Json
  | str (s : String) : Json
  | arr (items : List Json) : Json
  | obj (members : List (String × Json)) : Json

/-- Truthiness of a value (`ToBoolean`). -/
def Json.truthy : Json → Bool
  | .null => false
  | .bool b => b
  | .num n => n != 0
  | .str s => s != ""
  | .arr _ => true
  | .obj _ => true

/-- Own property `key` of an object built by `JSON.parse`: of several members
with the same key the last one stays. -/
def lookupMember (members : List (String × Json)) (key : String) : Option Json :=
  (members.reverse.find? (fun kv => kv.1 == key)).map (fun kv => kv.2)

/-- Reading `v.message`: `none` is the TypeError raised on `null`, `some none`
is `undefined`. -/
def Json.getMessage : Json → Option (Option Json)
  | .null => none
  | .obj members => some (lookupMember members "message")
  | _ => some (Option.none)

/-! ## Environment -/

/-- What the page and the host provide to the module. -/
structure Env where
  /-- `document.getElementById("editTaskActionBtn")` found an element. -/
  editBtn : Bool
  /-- `document.getElementById("editTaskForm")` found an element. -/
  editForm : Bool
  /-- `document.getElementById("taskDetailSection")` found an element. -/
  detailSection : Bool
  /-- `document.getElementById("editTagInputContainer")` found an element. -/
  tagContainer : Bool
  /-- `document.getElementById("editTagsInput")` found an element. -/
  tagInput : Bool
  /-- `!isNaN(new Date(s).getTime())`. -/
  dateParses : String → Bool
  /-- `s.toLowerCase()`. -/
  toLowerCase : String → String
  /-- `JSON.parse(s)`; `none` when it throws. -/
  jsonParse : String → Option Json
  /-- `TaskHelpers.formatDateForInput(d)`; `none` is a missing due date. -/
  formatDateForInput : Option String → String
  /-- `typeof window.viewTasks === "function"`. -/
  viewTasks : Bool
  /-- `typeof window.viewTask === "function"`. -/
  viewTask : Bool

/-! ## Validation -/

/-- The closure constant `PRIORITIES`. -/
def PRIORITIES : List String := ["low", "medium", "high"]

/-- The closure constant `STATUSES`. -/
def STATUSES : List String := ["pending", "in-progress", "completed"]

/-- The payload assembled by `handleSubmit`. -/
structure Payload where
  title : String
  description : String
  priority : String
  status : String
  dueDate : String
  tags : List String
deriving DecidableEq, Repr

/-- The elements `validatePayload` hands back for focusing. -/
inductive FieldRef where
  | title | description | priority | status | dueDate | tagInput
deriving DecidableEq, Repr

/-- Result of `validatePayload`: `{valid: true}` or
`{valid: false, message, field}` (`field` is `none` when the element is
missing). -/
inductive Validation where
  | ok : Validation
  | invalid (message : String) (field : Option FieldRef) : Validation
deriving DecidableEq, Repr

/-- The `valid` property of a validation result. -/
def Validation.valid : Validation → Bool
  | .ok => true
  | .invalid _ _ => false

/-- The `message` property of a validation result. -/
def Validation.message : Validation → Option String
  | .ok => none
  | .invalid m _ => some m

/-- The `field` property of a validation result. -/
def Validation.field : Validation → Option FieldRef
  | .ok => none
  | .invalid _ f => f

/-- One entry of the `checks` table. -/
structure Check where
  condition : Bool
  message : String
  field : Option FieldRef

/-- The lookup `formFields.name` with `formFields = editForm || {}`: the
control when the form exists, `undefined` otherwise. -/
def formField (env : Env) (f : FieldRef) : Option FieldRef :=
  if env.editForm then some f else none

/-- The closure variable `tagInput` as a focus target. -/
def tagInputField (env : Env) : Option FieldRef :=
  if env.tagInput then some FieldRef.tagInput else none

/-- The `checks` array of `validatePayload`. -/
def checks (env : Env) (payload : Payload) : List Check :=
  [ { condition := !truthy payload.title,
      message := "Title is required", field := formField env .title },
    { condition := truthy payload.title && decide (jsLength payload.title < 3),
      message := "Title must be at least 3 characters", field := formField env .title },
    { condition := truthy payload.title && decide (jsLength payload.title > 100),
      message := "Title must not exceed 100 characters", field := formField env .title },
    { condition := truthy payload.description && decide (jsLength payload.description > 500),
      message := "Description must not exceed 500 characters",
      field := formField env .description },
    { condition := indexOf PRIORITIES payload.priority == -1,
      message := "Select a valid priority", field := formField env .priority },
    { condition := indexOf STATUSES payload.status == -1,
      message := "Select a valid status", field := formField env .status },
    { condition := !truthy payload.dueDate,
      message := "Due date is required", field := formField env .dueDate } ]

/-- The loop over `payload.tags`: true when it meets a tag whose length is
below 2 or above 20. -/
def tagLoopFails : List String → Bool
  | [] => false
  | tag :: rest =>
    if jsLength tag < 2 || jsLength tag > 20 then true else tagLoopFails rest

/-- The function `validatePayload`. -/
def validatePayload (env : Env) (payload : Payload) : Validation :=
  match (checks env payload).find? (fun c => c.condition) with
  | some c => .invalid c.message c.field
  | none =>
    if !env.dateParses payload.dueDate then
      .invalid "Due date is invalid" (formField env .dueDate)
    else if payload.tags.length == 0 then
      .invalid "Please add at least one tag" (tagInputField env)
    else if payload.tags.length > 10 then
      .invalid "Maximum 10 tags allowed" (tagInputField env)
    else if tagLoopFails payload.tags then
      .invalid "Tags must be 2-20 characters" (tagInputField env)
    else .ok

/-- The `basePayload` of `runValidationSelfCheck`. -/
def basePayload : Payload :=
  { title := "Sample Task", description := "Sample description", priority := "low",
    status := "pending", dueDate := "2030-01-01", tags := ["sample"] }

/-! ## State of the module -/

/-- A task as the list and detail views hand it over; `none` in a field is a
`null` or missing property, `tags := none` a value that is not an array. -/
structure Task where
  /-- The id as it prints into the request URL. -/
  id : String
  title : Option String
  description : Option String
  priority : Option String
  status : Option String
  dueDate : Option String
  tags : Option (List String)
deriving DecidableEq, Repr

/-- A `.tag-pill` element: its text and the `index` its remove handler closed
over when it was rendered. -/
structure Pill where
  text : String
  index : Nat
deriving DecidableEq, Repr

/-- The mutable state the module works on: the globals of `TaskState`, the
closure variable `isEditing`, and the DOM cells it reads and writes. -/
structure State where
  /-- `TaskState.selectedTask`. -/
  selectedTask : Option Task
  /-- `TaskState.editTags`. -/
  editTags : List String
  /-- The closure variable `isEditing`. -/
  isEditing : Bool
  /-- `editForm.title.value`. -/
  formTitle : String
  /-- `editForm.description.value`. -/
  formDescription : String
  /-- `editForm.priority.value`. -/
  formPriority : String
  /-- `editForm.status.value`. -/
  formStatus : String
  /-- `editForm.dueDate.value`. -/
  formDueDate : String
  /-- `tagInput.value`. -/
  tagInputValue : String
  /-- `editForm.style.display`. -/
  formDisplay : String
  /-- `detailSection.style.display`. -/
  detailDisplay : String
  /-- `editBtn.textContent`. -/
  editBtnText : String
  /-- The `.tag-pill` children of the tag container, in document order. -/
  pills : List Pill
deriving DecidableEq, Repr

/-- What a handler does to the outside, in order. -/
inductive Effect where
  /-- `event.preventDefault()`. -/
  | preventDefault : Effect
  /-- `event.stopPropagation()`. -/
  | stopPropagation : Effect
  /-- `alert(v)`. -/
  | alert (v : Json) : Effect
  /-- `field.focus()`. -/
  | focus (f : FieldRef) : Effect
  /-- `editForm.requestSubmit()`. -/
  | requestSubmit : Effect
  /-- The `PUT` request opened on `url` and sent with `JSON.stringify(body)`. -/
  | send (url : String) (body : Payload) : Effect
  /-- `window.viewTasks()`. -/
  | viewTasks : Effect
  /-- `window.viewTask(id)`. -/
  | viewTask (id : String) : Effect

/-- Result of running a handler: the state it leaves, its effects in order,
and whether it ended by an uncaught exception. -/
structure Outcome where
  state : State
  effects : List Effect
  threw : Bool

/-- The alerts among a list of effects, in order. -/
def alerts : List Effect → List Json
  | [] => []
  | .alert v :: rest => v :: alerts rest
  | _ :: rest => alerts rest

/-- The update requests among a list of effects, in order. -/
def requests : List Effect → List (String × Payload)
  | [] => []
  | .send url body :: rest => (url, body) :: requests rest
  | _ :: rest => requests rest

/-! ## Edit mode -/

/-- The expression `v || d` for a possibly missing string. -/
def orDefault (v : Option String) (d : String) : String :=
  match v with
  | some s => if truthy s then s else d
  | none => d

/-- The function `setEditMode`. -/
def setEditMode (env : Env) (value : Bool) (s : State) : State :=
  let s := { s with isEditing := value }
  let s := if env.editForm then
    { s with formDisplay := if s.isEditing then "block" else "none" } else s
  let s := if env.detailSection then
    { s with detailDisplay := if s.isEditing then "none" else "" } else s
  if env.editBtn then
    { s with editBtnText := if s.isEditing then "Save Changes" else "Edit Task" } else s

/-- Pills created by the `forEach` of `renderEditTags`, the first for index `i`. -/
def pillsFrom (i : Nat) : List String → List Pill
  | [] => []
  | tag :: rest => { text := tag, index := i } :: pillsFrom (i + 1) rest

/-- The function `renderEditTags`: drops every pill and creates one per entry
of `TaskState.editTags` (colours left out). -/
def renderEditTags (env : Env) (s : State) : State :=
  if !env.tagContainer || !env.tagInput then s
  else { s with pills := pillsFrom 0 s.editTags }

/-- The function `window.prepareEditForm`. -/
def prepareEditForm (env : Env) (task : Task) (s : State) : State :=
  if !env.editForm then s
  else
    let s := { s with formTitle := orDefault task.title "" }
    let s := { s with formDescription := orDefault task.description "" }
    let s := { s with formPriority := env.toLowerCase (orDefault task.priority "medium") }
    let s := { s with formStatus := env.toLowerCase (orDefault task.status "pending") }
    let s := { s with formDueDate := env.formatDateForInput task.dueDate }
    let s := { s with editTags := match task.tags with
                                  | some tags => tags
                                  | none => [] }
    setEditMode env false (renderEditTags env s)

/-- The function `window.exitEditMode`. -/
def exitEditMode (env : Env) (s : State) : State :=
  setEditMode env false s

/-- The function `handleEditClick`. -/
def handleEditClick (env : Env) (s : State) : Outcome :=
  if s.selectedTask.isNone || !env.editForm then
    { state := s, effects := [.preventDefault], threw := false }
  else if !s.isEditing then
    { state := setEditMode env true s,
      effects := [.preventDefault, .focus .title], threw := false }
  else
    { state := s, effects := [.preventDefault, .requestSubmit], threw := false }

/-! ## Submit and response -/

/-- The payload literal of `handleSubmit`. -/
def assemblePayload (env : Env) (s : State) : Payload :=
  { title := jsTrim (if truthy s.formTitle then s.formTitle else ""),
    description := jsTrim (if truthy s.formDescription then s.formDescription else ""),
    priority := env.toLowerCase (if truthy s.formPriority then s.formPriority else "medium"),
    status := env.toLowerCase (if truthy s.formStatus then s.formStatus else "pending"),
    dueDate := s.formDueDate,
    tags := s.editTags }

/-- The guarded call `validation.field.focus()`. -/
def focusEffects : Option FieldRef → List Effect
  | some f => [.focus f]
  | none => []

/-- The function `handleSubmit` up to `request.send`; it is the submit
listener of `editForm`, so the form exists when it runs. -/
def handleSubmit (env : Env) (s : State) : Outcome :=
  match s.selectedTask with
  | none => { state := s, effects := [.preventDefault], threw := false }
  | some task =>
    let payload := assemblePayload env s
    match validatePayload env payload with
    | .invalid message field =>
      { state := s,
        effects := [.preventDefault, .alert (.str message)] ++ focusEffects field,
        threw := false }
    | .ok =>
      { state := s,
        effects := [.preventDefault, .send ("/tasks" ++ "/" ++ task.id) payload],
        threw := false }

/-- The function `parseResponse`. -/
def parseResponse (env : Env) (text : String) : Json :=
  if truthy text then
    match env.jsonParse text with
    | some v => v
    | none => .obj []
  else .obj []

/-- The expression `response.message || fallback` once `response.message`
has been read. -/
def messageOr (message : Option Json) (fallback : String) : Json :=
  match message with
  | some m => if m.truthy then m else .str fallback
  | none => .str fallback

/-- The handler `request.onload` for a response with the given status and
body text. -/
def onload (env : Env) (status : Nat) (responseText : String) (s : State) : Outcome :=
  let response := parseResponse env responseText
  if status == 200 then
    match response.getMessage with
    | none => { state := s, effects := [], threw := true }
    | some message =>
      let s1 := setEditMode env false s
      let e1 : List Effect := [.alert (messageOr message "Task updated!")]
      let e2 : List Effect := if env.viewTasks then e1 ++ [.viewTasks] else e1
      if env.viewTask then
        match s1.selectedTask with
        | some task => { state := s1, effects := e2 ++ [.viewTask task.id], threw := false }
        | none => { state := s1, effects := e2, threw := true }
      else { state := s1, effects := e2, threw := false }
  else
    match response.getMessage with
    | none => { state := s, effects := [], threw := true }
    | some message =>
      { state := s, effects := [.alert (messageOr message "Failed to update task.")],
        threw := false }

/-- The handler `request.onerror`. -/
def onerror (s : State) : Outcome :=
  { state := s, effects := [.alert (.str "Failed to update task.")], threw := false }

/-! ## Tag widget -/

/-- The function `handleTagKeydown` for a key event with the given `key`; it
is the keydown listener of `tagInput`, so that element exists when it runs. -/
def handleTagKeydown (env : Env) (key : String) (s : State) : Outcome :=
  if key = "Enter" then
    let value := jsTrim s.tagInputValue
    let s1 :=
      if truthy value && indexOf s.editTags value == -1 then
        renderEditTags env { s with editTags := s.editTags ++ [value] }
      else s
    { state := { s1 with tagInputValue := "" }, effects := [.preventDefault], threw := false }
  else if key = "Backspace" && !truthy s.tagInputValue then
    { state := renderEditTags env { s with editTags := s.editTags.dropLast },
      effects := [], threw := false }
  else { state := s, effects := [], threw := false }

/-- The click handler on the remove control of the `k`-th pill; without such
a pill there is nothing to click. -/
def removePillClick (env : Env) (k : Nat) (s : State) : Outcome :=
  match s.pills.get? k with
  | none => { state := s, effects := [], threw := false }
  | some pill =>
    { state := renderEditTags env { s with editTags := s.editTags.eraseIdx pill.index },
      effects := [.stopPropagation], threw := false }

/-- What the user does in the tag widget. -/
inductive Action where
  /-- The text of the tag input is edited to `text`. -/
  | typeText (text : String) : Action
  /-- A key is pressed in the tag input. -/
  | keydown (key : String) : Action
  /-- The remove control of the `k`-th pill is clicked. -/
  | clickRemove (k : Nat) : Action
deriving DecidableEq, Repr

/-- One action of the user on the tag widget. -/
def step (env : Env) (s : State) : Action → State
  | .typeText text => { s with tagInputValue := text }
  | .keydown key => (handleTagKeydown env key s).state
  | .clickRemove k => (removePillClick env k s).state

/-- A sequence of actions, left to right. -/
def run (env : Env) (s : State) (actions : List Action) : State :=
  actions.foldl (step env) s

/-- The add-tag gesture: `text` is typed into the tag input and Enter is
pressed. -/
def addTag (env : Env) (text : String) (s : State) : State :=
  run env s [.typeText text, .keydown "Enter"]

/-- The remove-last gesture: Backspace in the emptied tag input. -/
def removeLast (env : Env) (s : State) : State :=
  run env s [.typeText "", .keydown "Backspace"]

/-! ## A concrete environment for closed examples -/

/-- Lower-casing of the letters A to Z; agrees with `toLowerCase` on ASCII
text. -/
def asciiLower (s : String) : String :=
  String.mk (s.data.map Char.toLower)

/-- The values of `JSON.parse` on the texts used in the closed examples; other
texts count as malformed. -/
def sampleJsonParse (text : String) : Option Json :=
  if text = "null" then some .null
  else if text = "\x7b\x7d" then some (.obj [])
  else if text = "\x7b\"message\":\"\"\x7d" then some (.obj [("message", .str "")])
  else if text = "\x7b\"message\":\"Server error\"\x7d" then
    some (.obj [("message", .str "Server error")])
  else none

/-- A page with every element present.  The host functions are fixed on the
texts the closed examples use: of the due dates only `2030-01-01` (the one of
the self-check) counts as parsing, and lower-casing is that of ASCII. -/
def sampleEnv : Env :=
  { editBtn := true, editForm := true, detailSection := true,
    tagContainer := true, tagInput := true,
    dateParses := fun text => text == "2030-01-01",
    toLowerCase := asciiLower,
    jsonParse := sampleJsonParse,
    formatDateForInput := fun d => d.getD "",
    viewTasks := true, viewTask := true }

/-- A task that passes validation once loaded into the form. -/
def sampleTask : Task :=
  { id := "1", title := some "Sample Task", description := some "Sample description",
    priority := some "low", status := some "pending", dueDate := some "2030-01-01",
    tags := some ["sample"] }

/-- The state of a page before any task was opened. -/
def initialState : State :=
  { selectedTask := none, editTags := [], isEditing := false,
    formTitle := "", formDescription := "", formPriority := "", formStatus := "",
    formDueDate := "", tagInputValue := "", formDisplay := "", detailDisplay := "",
    editBtnText := "", pills := [] }

/-! ## The validation order and the field constraints, as specified -/

/-- Condition of rule `i` (1 to 11) of the validation order. -/
def ruleCondition (env : Env) (p : Payload) : Nat → Bool
  | 1 => decide (p.title = "")
  | 2 => decide (jsLength p.title < 3)
  | 3 => decide (jsLength p.title > 100)
  | 4 => decide (jsLength p.description > 500)
  | 5 => decide (p.priority ∉ ["low", "medium", "high"])
  | 6 => decide (p.status ∉ ["pending", "in-progress", "completed"])
  | 7 => decide (p.dueDate = "")
  | 8 => !env.dateParses p.dueDate
  | 9 => decide (p.tags = [])
  | 10 => decide (p.tags.length > 10)
  | 11 => decide (∃ t ∈ p.tags, jsLength t < 2 ∨ jsLength t > 20)
  | _ => false

/-- Message of rule `i` (1 to 11) of the validation order. -/
def ruleMessage : Nat → String
  | 1 => "Title is required"
  | 2 => "Title must be at least 3 characters"
  | 3 => "Title must not exceed 100 characters"
  | 4 => "Description must not exceed 500 characters"
  | 5 => "Select a valid priority"
  | 6 => "Select a valid status"
  | 7 => "Due date is required"
  | 8 => "Due date is invalid"
  | 9 => "Please add at least one tag"
  | 10 => "Maximum 10 tags allowed"
  | 11 => "Tags must be 2-20 characters"
  | _ => ""

/-- Focus target of rule `i` (1 to 11) of the validation order. -/
def ruleField (env : Env) : Nat → Option FieldRef
  | 1 => formField env .title
  | 2 => formField env .title
  | 3 => formField env .title
  | 4 => formField env .description
  | 5 => formField env .priority
  | 6 => formField env .status
  | 7 => formField env .dueDate
  | 8 => formField env .dueDate
  | 9 => tagInputField env
  | 10 => tagInputField env
  | 11 => tagInputField env
  | _ => none

/-- The field constraints of the Task data model that `validatePayload` is
said to accept exactly. -/
def meetsConstraints (env : Env) (p : Payload) : Prop :=
  (3 ≤ jsLength p.title ∧ jsLength p.title ≤ 100) ∧
  jsLength p.description ≤ 500 ∧
  p.priority ∈ ["low", "medium", "high"] ∧
  p.status ∈ ["pending", "in-progress", "completed"] ∧
  (p.dueDate ≠ "" ∧ env.dateParses p.dueDate = true) ∧
  (1 ≤ p.tags.length ∧ p.tags.length ≤ 10) ∧
  ∀ t ∈ p.tags, 2 ≤ jsLength t ∧ jsLength t ≤ 20

/-! ## States used in closed examples, and the rendering invariant -/

/-- A state in the middle of an edit: the sample task is selected, loaded into
the form, and edit mode is on. -/
def sampleEditing : State :=
  setEditMode sampleEnv true
    (prepareEditForm sampleEnv sampleTask { initialState with selectedTask := some sampleTask })

/-- The tag pills are those `renderEditTags` draws for the current tag list. -/
def pillsInSync (s : State) : Prop :=
  s.pills = pillsFrom 0 s.editTags

/-! ## The offending field of each rule, as specified -/

/-- The control each rule of the validation order names as the offending
field: the title input for rules 1 to 3, the description input for rule 4, the
priority and status selects for rules 5 and 6, the due-date input for rules 7
and 8, the tag input for rules 9 to 11. -/
def offendingField : Nat → FieldRef
  | 1 => .title
  | 2 => .title
  | 3 => .title
  | 4 => .description
  | 5 => .priority
  | 6 => .status
  | 7 => .dueDate
  | 8 => .dueDate
  | _ => .tagInput

/-! ## The coverage server (`cypress-server.js`): the route `PUT /tasks/:id` -/

namespace Server

/-- Own property `key` of a value built by `JSON.parse`, `none` when it is
missing or the value is not an object. -/
def get : Json → String → Option Json
  | .obj members, key => lookupMember members key
  | _, _ => none

/-- The text of a string value. -/
def asString : Json → Option String
  | .str s => some s
  | _ => none

/-- The assignment `target[key] = value` on the members of an object. -/
def setMember (members : List (String × Json)) (key : String) (value : Json) :
    List (String × Json) :=
  if members.any (fun kv => kv.1 == key) then
    members.map (fun kv => if kv.1 == key then (kv.1, value) else kv)
  else members ++ [(key, value)]

/-- The index properties of an array from index `i` on. -/
def indexed (i : Nat) : List Json → List (String × Json)
  | [] => []
  | v :: rest => (toString i, v) :: indexed (i + 1) rest

/-- The own enumerable properties a spread `...value` copies.  A record that
matched the path id is an object; string primitives, whose spread would copy
their code units, do not occur in that place and are given no properties. -/
def ownEntries : Json → List (String × Json)
  | .obj members => members
  | .arr items => indexed 0 items
  | _ => []

/-- The request body `req.body` as `express.json()` leaves it: an object (the
empty one when there was no JSON body) or an array. -/
inductive Body where
  | object (members : List (String × Json)) : Body
  | array (items : List Json) : Body

/-- The own enumerable properties of the request body. -/
def Body.entries : Body → List (String × Json)
  | .object members => members
  | .array items => indexed 0 items

/-- Copying the properties `source` onto `target`, one assignment after the
other. -/
def spread (target source : List (String × Json)) : List (String × Json) :=
  source.foldl (fun acc kv => setMember acc kv.1 kv.2) target

/-- The object literal `{ ...data.tasks[index], ...req.body }`. -/
def mergeRecord (record : Json) (body : Body) : Json :=
  .obj (spread (spread [] (ownEntries record)) body.entries)

/-- The callback `t => t.id === req.params.id`, with `none` for the TypeError
of reading `id` on `null`.  The path parameter is a string, so only a string
`id` with the same text is strictly equal to it. -/
def idMatches (id : String) : Json → Option Bool
  | .null => none
  | .obj members =>
    match lookupMember members "id" with
    | some (.str s) => some (s == id)
    | _ => some false
  | _ => some false

/-- The scan of `findIndex` from position `i` on: `none` when the callback
throws, `some none` for the result `-1`. -/
def findIndexFrom (id : String) : List Json → Nat → Option (Option Nat)
  | [], _ => some none
  | t :: rest, i =>
    match idMatches id t with
    | none => none
    | some true => some (some i)
    | some false => findIndexFrom id rest (i + 1)

/-- The call `data.tasks.findIndex(t => t.id === req.params.id)`. -/
def findIndex (id : String) (tasks : List Json) : Option (Option Nat) :=
  findIndexFrom id tasks 0

/-- The array `data.tasks` on which `findIndex` can be called; `none` is the
TypeError raised when `data` is `null`, has no `tasks`, or `tasks` is not an
array. -/
def tasksOf : Json → Option (List Json)
  | .obj members =>
    match lookupMember members "tasks" with
    | some (.arr tasks) => some tasks
    | _ => none
  | _ => none

/-- The document `data` once `data.tasks[index]` has been assigned. -/
def withTasks (data : Json) (tasks : List Json) : Json :=
  match data with
  | .obj members => .obj (setMember members "tasks" (.arr tasks))
  | other => other

/-- An exception thrown while the store is read, parsed or written: its
`code` property (`ENOENT` for a missing file) and its message. -/
structure StoreError where
  code : Option String
  message : String

/-- The backing store as one request meets it. -/
structure Store where
  /-- `JSON.parse(fs.readFileSync(taskboardPath, 'utf-8'))`: the document, or
  the exception thrown by the read or by the parse. -/
  read : Except StoreError Json
  /-- The exception `fs.writeFileSync` throws; `none` when the write succeeds. -/
  writeError : Option StoreError

/-- The response sent: `res.status(status).json(body)`. -/
structure Response where
  status : Nat
  body : Json

/-- What the handler did: the response, and the document handed to
`fs.writeFileSync` (as `JSON.stringify` prints it) when one was written. -/
structure Handled where
  response : Response
  written : Option Json

/-- The `catch` branch of the route. -/
def caught : Handled :=
  { response := { status := 500, body := .obj [("message", .str "Error updating task")] },
    written := none }

/-- The handler of `app.put('/tasks/:id', ...)` for the path parameter `id`
and the request body `body`. -/
def putTask (store : Store) (id : String) (body : Body) : Handled :=
  match store.read with
  | .error _ => caught
  | .ok data =>
    match tasksOf data with
    | none => caught
    | some tasks =>
      match findIndex id tasks with
      | none => caught
      | some none =>
        { response := { status := 404, body := .obj [("message", .str "Task not found")] },
          written := none }
      | some (some index) =>
        let merged := mergeRecord ((tasks.get? index).getD .null) body
        match store.writeError with
        | some _ => caught
        | none =>
          { response := { status := 200, body := merged },
            written := some (withTasks data (tasks.set index merged)) }

/-- A store holding the given tasks under `tasks`, with a working write. -/
def storeOf (tasks : List Json) : Store :=
  { read := .ok (.obj [("tasks", .arr tasks)]), writeError := none }

/-- The stored task of the unit test on falsy overrides, with a string id. -/
def keepTask : Json :=
  .obj [("id", .str "5"), ("title", .str "Keep Title"),
    ("description", .str "Keep Description"), ("priority", .str "medium"),
    ("dueDate", .str "2026-03-01"), ("tags", .arr [.str "existing"]),
    ("status", .str "pending")]

/-- The request body of the unit test on falsy overrides. -/
def falsyBody : Body :=
  .object [("title", .str ""), ("description", .null), ("dueDate", .str ""),
    ("status", .str "")]

/-- The stored task of the unit test on string ids: its id is the number 1. -/
def numericIdTask : Json :=
  .obj [("id", .num 1), ("title", .str "Numeric ID"), ("description", .str "Desc"),
    ("priority", .str "low"), ("dueDate", .str "2026-01-10"), ("tags", .arr [.str "one"]),
    ("status", .str "pending")]

/-- The stored task of the unit test on partial updates, with a string id. -/
def originalTask : Json :=
  .obj [("id", .str "1"), ("title", .str "Original"), ("description", .str "Keep me"),
    ("priority", .str "medium"), ("dueDate", .str "2026-01-15"), ("tags", .arr [.str "tag"]),
    ("status", .str "pending")]

end Server

/-! ## Request bodies and stores used for the error and frame claims -/

namespace Server

/-- The body the client sends: `JSON.stringify(payload)` as `express.json()`
reads it back. -/
def payloadBody (p : Payload) : Body :=
  .object [("title", .str p.title), ("description", .str p.description),
    ("priority", .str p.priority), ("status", .str p.status), ("dueDate", .str p.dueDate),
    ("tags", .arr (p.tags.map Json.str))]

/-- A store that holds the given tasks and whose write throws the given
error. -/
def storeFailingWrite (tasks : List Json) (e : StoreError) : Store :=
  { read := .ok (.obj [("tasks", .arr tasks)]), writeError := some e }

/-- A store whose read (or parse) throws the given error. -/
def storeFailingRead (e : StoreError) : Store :=
  { read := .error e, writeError := none }

/-- A stored task with a creation time. -/
def datedTask : Json :=
  .obj [("id", .str "1"), ("title", .str "Original"),
    ("createdAt", .str "2026-01-01T00:00:00.000Z")]

end Server

/-! ## Edit-mode display and its operations -/

/-- The display cells agree with `isEditing`, for the elements the page has:
the form is shown (`block`) exactly when editing and hidden (`none`)
otherwise, the detail section is hidden (`none`) exactly when editing and
shown (no inline display) otherwise, the button reads `Save Changes` exactly
when editing and `Edit Task` otherwise. -/
def displayConsistent (env : Env) (s : State) : Prop :=
  (env.editForm = true → s.formDisplay = if s.isEditing then "block" else "none") ∧
  (env.detailSection = true → s.detailDisplay = if s.isEditing then "none" else "") ∧
  (env.editBtn = true → s.editBtnText = if s.isEditing then "Save Changes" else "Edit Task")

/-- The operations that touch the edit mode. -/
inductive ModeOp where
  /-- A call `setEditMode(value)`. -/
  | setMode (value : Bool) : ModeOp
  /-- A call `window.prepareEditForm(task)`. -/
  | prepare (task : Task) : ModeOp
  /-- A call `window.exitEditMode()`. -/
  | exit : ModeOp
  /-- A click on the edit button: `handleEditClick`. -/
  | editClick : ModeOp

/-- The state after one operation on the edit mode. -/
def applyModeOp (env : Env) (s : State) : ModeOp → State
  | .setMode value => setEditMode env value s
  | .prepare task => prepareEditForm env task s
  | .exit => exitEditMode env s
  | .editClick => (handleEditClick env s).state

/-- A sequence of operations on the edit mode, left to right. -/
def runModeOps (env : Env) (s : State) (ops : List ModeOp) : State :=
  ops.foldl (applyModeOp env) s

/-! ## The validation self-check -/

/-- An `overrides` object of the self-check: for each property of the
payload, the value it owns (`none` when it does not own the property). -/
structure Overrides where
  title : Option String
  description : Option String
  priority : Option String
  status : Option String
  dueDate : Option String
  tags : Option (List String)

/-- The overrides object without properties. -/
def noOverrides : Overrides :=
  { title := none, description := none, priority := none, status := none, dueDate := none,
    tags := none }

/-- The function `mergePayload`: a copy of the base payload (its tags
sliced) on which every own property of `overrides` is assigned. -/
def mergePayload (basePayload : Payload) (overrides : Overrides) : Payload :=
  let cloned : Payload :=
    { title := basePayload.title, description := basePayload.description,
      priority := basePayload.priority, status := basePayload.status,
      dueDate := basePayload.dueDate, tags := basePayload.tags }
  { title := overrides.title.getD cloned.title,
    description := overrides.description.getD cloned.description,
    priority := overrides.priority.getD cloned.priority,
    status := overrides.status.getD cloned.status,
    dueDate := overrides.dueDate.getD cloned.dueDate,
    tags := overrides.tags.getD cloned.tags }

/-- The expression `new Array(n).join(separator)`: `n` empty slots joined. -/
def arrayJoin (n : Nat) (separator : String) : String :=
  separator.intercalate (List.replicate n "")

/-- The function `createManyTagsScenario`: the tags `tag0` to `tag10`. -/
def createManyTagsScenario : Overrides :=
  { noOverrides with tags := some ((List.range 11).map (fun i => "tag" ++ toString i)) }

/-- The array `scenarios` of `runValidationSelfCheck`. -/
def scenarios : List Overrides :=
  [ { noOverrides with title := some "" },
    { noOverrides with title := some "AB" },
    { noOverrides with title := some (arrayJoin 102 "T") },
    { noOverrides with description := some (arrayJoin 502 "d") },
    { noOverrides with priority := some "urgent" },
    { noOverrides with status := some "done" },
    { noOverrides with dueDate := some "" },
    { noOverrides with dueDate := some "not-a-date" },
    { noOverrides with tags := some [] },
    createManyTagsScenario,
    { noOverrides with tags := some ["x"] } ]

/-- The function `runValidationSelfCheck`: the results of its calls of
`validatePayload`, in order (the function itself drops them). -/
def runValidationSelfCheck (env : Env) : List Validation :=
  scenarios.map (fun scenario => validatePayload env (mergePayload basePayload scenario))

/-! # Theorems -/

/-! ## Strings, `indexOf` and the tag loop -/

theorem utf16Units_pos (c : Char) : 0 < utf16Units c := by
  unfold utf16Units; split <;> decide

theorem jsLength_eq_zero_iff (s : String) : jsLength s = 0 ↔ s = "" := by
  cases s with
  | mk l =>
    cases l with
    | nil => simp [jsLength]
    | cons c cs =>
      have h := utf16Units_pos c
      constructor
      · intro h0
        simp [jsLength] at h0
        omega
      · intro h0
        have := congrArg String.data h0
        simp at this

theorem truthy_iff (s : String) : truthy s = true ↔ s ≠ "" := by
  simp [truthy]

theorem indexOfFrom_eq_neg_one (xs : List String) (v : String) (i : Int) (hi : 0 ≤ i) :
    indexOfFrom xs v i = -1 ↔ v ∉ xs := by
  induction xs generalizing i with
  | nil => simp [indexOfFrom]
  | cons x rest ih =>
    unfold indexOfFrom
    by_cases h : x = v
    · simp [h]; omega
    · have h2 : ¬ v = x := fun e => h e.symm
      simp [h, h2, ih (i + 1) (by omega)]

theorem indexOf_eq_neg_one (xs : List String) (v : String) :
    indexOf xs v = -1 ↔ v ∉ xs :=
  indexOfFrom_eq_neg_one xs v 0 (le_refl 0)

theorem tagLoopFails_iff (tags : List String) :
    tagLoopFails tags = true ↔ ∃ t ∈ tags, jsLength t < 2 ∨ jsLength t > 20 := by
  induction tags with
  | nil => simp [tagLoopFails]
  | cons t rest ih =>
    unfold tagLoopFails
    by_cases h : jsLength t < 2 ∨ jsLength t > 20
    · have : (decide (jsLength t < 2) || decide (jsLength t > 20)) = true := by simpa using h
      simp [this, h]
    · have : (decide (jsLength t < 2) || decide (jsLength t > 20)) = false := by
        simpa using h
      rw [this]
      simp only [Bool.false_eq_true, if_false, ih, List.mem_cons, exists_eq_or_imp, h, false_or]

theorem indexOf_beq (xs : List String) (v : String) :
    (indexOf xs v == -1) = decide (v ∉ xs) := by
  by_cases h : v ∉ xs
  · have := (indexOf_eq_neg_one xs v).2 h
    simp [this, h]
  · have h1 : indexOf xs v ≠ -1 := fun e => h ((indexOf_eq_neg_one xs v).1 e)
    simp only [h, decide_False]
    simpa using h1

theorem tagLoopFails_eq (tags : List String) :
    tagLoopFails tags = decide (∃ t ∈ tags, jsLength t < 2 ∨ jsLength t > 20) := by
  by_cases h : ∃ t ∈ tags, jsLength t < 2 ∨ jsLength t > 20
  · simp only [h, decide_True]; exact (tagLoopFails_iff tags).2 h
  · simp only [h, decide_False]
    cases hb : tagLoopFails tags with
    | false => rfl
    | true => exact absurd ((tagLoopFails_iff tags).1 hb) h

/-! ## `validatePayload` (C1, C2, C3) -/

theorem truthy_and_gt (s : String) (n : Nat) :
    (truthy s && decide (jsLength s > n)) = decide (jsLength s > n) := by
  by_cases h : s = ""
  · subst h
    have : jsLength "" = 0 := (jsLength_eq_zero_iff "").2 rfl
    simp [truthy, this]
  · simp [truthy, h]

/-- The body of `validatePayload` as one cascade of tests. -/
theorem validatePayload_eq (env : Env) (p : Payload) :
    validatePayload env p =
      if p.title = "" then .invalid "Title is required" (formField env .title)
      else if jsLength p.title < 3 then
        .invalid "Title must be at least 3 characters" (formField env .title)
      else if jsLength p.title > 100 then
        .invalid "Title must not exceed 100 characters" (formField env .title)
      else if jsLength p.description > 500 then
        .invalid "Description must not exceed 500 characters" (formField env .description)
      else if p.priority ∉ ["low", "medium", "high"] then
        .invalid "Select a valid priority" (formField env .priority)
      else if p.status ∉ ["pending", "in-progress", "completed"] then
        .invalid "Select a valid status" (formField env .status)
      else if p.dueDate = "" then .invalid "Due date is required" (formField env .dueDate)
      else if env.dateParses p.dueDate = false then
        .invalid "Due date is invalid" (formField env .dueDate)
      else if p.tags = [] then .invalid "Please add at least one tag" (tagInputField env)
      else if p.tags.length > 10 then .invalid "Maximum 10 tags allowed" (tagInputField env)
      else if ∃ t ∈ p.tags, jsLength t < 2 ∨ jsLength t > 20 then
        .invalid "Tags must be 2-20 characters" (tagInputField env)
      else .ok := by
  unfold validatePayload checks
  rw [truthy_and_gt, truthy_and_gt, indexOf_beq, indexOf_beq, tagLoopFails_eq]
  simp only [PRIORITIES, STATUSES]
  by_cases c1 : p.title = ""
  · simp [truthy, c1]
  by_cases c2 : jsLength p.title < 3
  · simp [truthy, c1, c2]
  by_cases c3 : jsLength p.title > 100
  · simp [truthy, c1, c2, c3]
  by_cases c4 : jsLength p.description > 500
  · simp [truthy, c1, c2, c3, c4]
  by_cases c5 : p.priority ∉ ["low", "medium", "high"]
  · simp only [truthy, c1, c2, c3, c4, c5]; simp [c1]
  by_cases c6 : p.status ∉ ["pending", "in-progress", "completed"]
  · simp only [truthy, c1, c2, c3, c4, c5, c6]; simp [c1]
  by_cases c7 : p.dueDate = ""
  · simp only [truthy, c1, c2, c3, c4, c5, c6, c7]; simp [c1]
  simp only [truthy, c1, c2, c3, c4, c5, c6, c7]
  simp [c1, c7]

theorem validatePayload_rule (env : Env) (p : Payload) (i : Nat)
    (hi : ruleCondition env p i = true)
    (hlow : ∀ j, 1 ≤ j → j < i → ruleCondition env p j = false) :
    validatePayload env p = .invalid (ruleMessage i) (ruleField env i) := by
  have hi11 : i ≤ 11 := by
    by_contra hc
    have : ruleCondition env p i = false := by
      unfold ruleCondition
      split <;> first | omega | rfl
    simp [this] at hi
  have hi1 : 1 ≤ i := by
    by_contra hc
    have : i = 0 := by omega
    subst this
    simp [ruleCondition] at hi
  have h1 := hlow 1
  have h2 := hlow 2
  have h3 := hlow 3
  have h4 := hlow 4
  have h5 := hlow 5
  have h6 := hlow 6
  have h7 := hlow 7
  have h8 := hlow 8
  have h9 := hlow 9
  have h10 := hlow 10
  rw [validatePayload_eq]
  interval_cases i <;>
    simp only [ruleCondition, decide_eq_true_eq, decide_eq_false_iff_not, Bool.not_eq_true',
      Bool.not_eq_false', le_refl, Nat.one_le_ofNat, Nat.reduceLT, Nat.lt_irrefl, true_implies,
      forall_const, Nat.reduceLeDiff] at hi h1 h2 h3 h4 h5 h6 h7 h8 h9 h10 <;>
    simp only [ruleMessage, ruleField, if_pos, if_neg, not_false_eq_true, hi, h1, h2, h3, h4,
      h5, h6, h7, h8, h9, h10, Bool.true_eq_false, Bool.false_eq_true, if_true, if_false]

theorem validatePayload_ok (env : Env) (p : Payload)
    (h : ∀ i, ruleCondition env p i = false) : validatePayload env p = .ok := by
  have h1 := h 1
  have h2 := h 2
  have h3 := h 3
  have h4 := h 4
  have h5 := h 5
  have h6 := h 6
  have h7 := h 7
  have h8 := h 8
  have h9 := h 9
  have h10 := h 10
  have h11 := h 11
  rw [validatePayload_eq]
  simp only [ruleCondition, decide_eq_true_eq, decide_eq_false_iff_not, Bool.not_eq_true',
      Bool.not_eq_false'] at h1 h2 h3 h4 h5 h6 h7 h8 h9 h10 h11
  simp only [if_pos, if_neg, not_false_eq_true, h1, h2, h3, h4,
      h5, h6, h7, h8, h9, h10, h11, Bool.true_eq_false, Bool.false_eq_true, if_true, if_false]

theorem ruleMessage_injective (i k : Nat) (hi1 : 1 ≤ i) (hi : i ≤ 11) (hk1 : 1 ≤ k)
    (hk : k ≤ 11) (h : ruleMessage i = ruleMessage k) : i = k := by
  interval_cases i <;> interval_cases k <;> first | rfl | (exfalso; revert h; decide)

theorem ruleCondition_range (env : Env) (p : Payload) (i : Nat)
    (h : ruleCondition env p i = true) : 1 ≤ i ∧ i ≤ 11 := by
  by_contra hc
  have : ruleCondition env p i = false := by
    unfold ruleCondition
    split <;> first | omega | rfl
  rw [this] at h
  exact Bool.false_ne_true h

/-- When some rule applies, the result is the rejection of the lowest such rule. -/
theorem validatePayload_least (env : Env) (p : Payload)
    (h : ∃ i, ruleCondition env p i = true) :
    ∃ i, ruleCondition env p i = true ∧
      (∀ j, 1 ≤ j → j < i → ruleCondition env p j = false) ∧
      validatePayload env p = .invalid (ruleMessage i) (ruleField env i) := by
  classical
  have hmin : ∀ j, 1 ≤ j → j < Nat.find h → ruleCondition env p j = false := by
    intro j _ hj
    have := Nat.find_min h hj
    simpa using this
  exact ⟨Nat.find h, Nat.find_spec h, hmin,
    validatePayload_rule env p (Nat.find h) (Nat.find_spec h) hmin⟩

theorem valid_iff_no_rule (env : Env) (p : Payload) :
    (validatePayload env p).valid = true ↔ ∀ i, ruleCondition env p i = false := by
  constructor
  · intro hv i
    by_contra hc
    have hi : ruleCondition env p i = true := by simpa using hc
    obtain ⟨k, _, _, hk⟩ := validatePayload_least env p ⟨i, hi⟩
    rw [hk] at hv
    exact Bool.false_ne_true hv
  · intro h
    rw [validatePayload_ok env p h]
    rfl

theorem no_rule_iff_meetsConstraints (env : Env) (p : Payload) :
    (∀ i, ruleCondition env p i = false) ↔ meetsConstraints env p := by
  unfold meetsConstraints
  constructor
  · intro h
    have h1 := h 1
    have h2 := h 2
    have h3 := h 3
    have h4 := h 4
    have h5 := h 5
    have h6 := h 6
    have h7 := h 7
    have h8 := h 8
    have h9 := h 9
    have h10 := h 10
    have h11 := h 11
    simp only [ruleCondition, decide_eq_false_iff_not, Bool.not_eq_false', not_not]
      at h1 h2 h3 h4 h5 h6 h7 h8 h9 h10 h11
    push_neg at h11
    refine ⟨⟨by omega, by omega⟩, by omega, h5, h6, ⟨h7, h8⟩, ⟨?_, by omega⟩, fun t ht => ?_⟩
    · exact List.length_pos.2 h9
    · have := h11 t ht
      omega
  · rintro ⟨⟨a1, a2⟩, a3, a4, a5, ⟨a6, a7⟩, ⟨a8, a9⟩, a10⟩ i
    have c1 : ¬ p.title = "" := by
      intro e
      have := (jsLength_eq_zero_iff p.title).2 e
      omega
    have c9 : ¬ p.tags = [] := List.length_pos.1 a8
    have c11 : ¬ ∃ t ∈ p.tags, jsLength t < 2 ∨ jsLength t > 20 := by
      rintro ⟨t, ht, hb⟩
      have := a10 t ht
      omega
    unfold ruleCondition
    split <;>
      simp only [decide_eq_false_iff_not, Bool.not_eq_false', not_not] <;>
      first | assumption | omega

theorem valid_iff_meetsConstraints (env : Env) (p : Payload) :
    (validatePayload env p).valid = true ↔ meetsConstraints env p :=
  (valid_iff_no_rule env p).trans (no_rule_iff_meetsConstraints env p)

/-- C1: when a payload meets the condition of at least one of the eleven
rules of the validation order, `validatePayload` rejects it with the message of
the lowest-numbered rule whose condition is met, and with the message of no
later rule. -/
theorem validatePayload_first_failing_rule (env : Env) (p : Payload)
    (h : ∃ i, 1 ≤ i ∧ i ≤ 11 ∧ ruleCondition env p i = true) :
    ∃ i, (1 ≤ i ∧ i ≤ 11) ∧ ruleCondition env p i = true ∧
      (∀ j, 1 ≤ j → j < i → ruleCondition env p j = false) ∧
      (validatePayload env p).valid = false ∧
      (validatePayload env p).message = some (ruleMessage i) ∧
      ∀ k, i < k → k ≤ 11 → (validatePayload env p).message ≠ some (ruleMessage k) := by
  obtain ⟨i0, _, _, hi0⟩ := h
  obtain ⟨i, hi, hlow, hres⟩ := validatePayload_least env p ⟨i0, hi0⟩
  have hr := ruleCondition_range env p i hi
  refine ⟨i, hr, hi, hlow, ?_, ?_, ?_⟩
  · rw [hres]; rfl
  · rw [hres]; rfl
  · intro k hik hk hm
    rw [hres] at hm
    have hm2 : ruleMessage i = ruleMessage k := Option.some.inj hm
    have := ruleMessage_injective i k hr.1 hr.2 (by omega) hk hm2
    omega

/-- Witness for C1: a two-character title with eleven tags meets rules 2 and
10 and is rejected with the message of rule 2. -/
theorem validatePayload_first_failing_rule_witness :
    ∃ i, (1 ≤ i ∧ i ≤ 11) ∧
      ruleCondition sampleEnv { basePayload with title := "AB", tags := List.replicate 11 "tag" } i
        = true ∧
      (∀ j, 1 ≤ j → j < i →
        ruleCondition sampleEnv
          { basePayload with title := "AB", tags := List.replicate 11 "tag" } j = false) ∧
      (validatePayload sampleEnv
        { basePayload with title := "AB", tags := List.replicate 11 "tag" }).valid = false ∧
      (validatePayload sampleEnv
        { basePayload with title := "AB", tags := List.replicate 11 "tag" }).message
          = some (ruleMessage i) ∧
      ∀ k, i < k → k ≤ 11 →
        (validatePayload sampleEnv
          { basePayload with title := "AB", tags := List.replicate 11 "tag" }).message
            ≠ some (ruleMessage k) :=
  validatePayload_first_failing_rule sampleEnv
    { basePayload with title := "AB", tags := List.replicate 11 "tag" }
    ⟨10, by decide, by decide, by decide⟩

/-- C2: `validatePayload` returns `{valid: true}` exactly for the payloads
that meet the field constraints (title 3 to 100 characters, description at most
500, priority and status in their lists, due date non-empty and parsing, 1 to
10 tags of 2 to 20 characters each); on an accepted payload a title of 3 or 100
characters, a description of 500, ten tags, and tags of 2 or 20 characters are
accepted, while a title of 2 or 101 characters, a description of 501, eleven
tags, and a tag of 1 or 21 characters are rejected. -/
theorem validatePayload_valid_iff (env : Env) (p : Payload) :
    ((validatePayload env p).valid = true ↔ meetsConstraints env p) ∧
    ((validatePayload env p).valid = true →
      (∀ t, jsLength t = 3 ∨ jsLength t = 100 →
        (validatePayload env { p with title := t }).valid = true) ∧
      (∀ d, jsLength d = 500 →
        (validatePayload env { p with description := d }).valid = true) ∧
      (∀ ts : List String, ts.length = 10 → (∀ t ∈ ts, jsLength t = 2 ∨ jsLength t = 20) →
        (validatePayload env { p with tags := ts }).valid = true)) ∧
    (∀ t, jsLength t = 2 ∨ jsLength t = 101 →
      (validatePayload env { p with title := t }).valid = false) ∧
    (∀ d, jsLength d = 501 →
      (validatePayload env { p with description := d }).valid = false) ∧
    (∀ ts : List String, ts.length = 11 →
      (validatePayload env { p with tags := ts }).valid = false) ∧
    (∀ ts : List String, (∃ t ∈ ts, jsLength t = 1 ∨ jsLength t = 21) →
      (validatePayload env { p with tags := ts }).valid = false) := by
  have hnot : ∀ q : Payload, ¬ meetsConstraints env q → (validatePayload env q).valid = false := by
    intro q hq
    cases hv : (validatePayload env q).valid with
    | false => rfl
    | true => exact absurd ((valid_iff_meetsConstraints env q).1 hv) hq
  refine ⟨valid_iff_meetsConstraints env p, ?_, ?_, ?_, ?_, ?_⟩
  · intro hv
    obtain ⟨a1, a2, a3, a4, a5, a6, a7⟩ := (valid_iff_meetsConstraints env p).1 hv
    refine ⟨fun t ht => ?_, fun d hd => ?_, fun ts hts hall => ?_⟩
    · exact (valid_iff_meetsConstraints env _).2 ⟨⟨by show 3 ≤ jsLength t; omega,
        by show jsLength t ≤ 100; omega⟩, a2, a3, a4, a5, a6, a7⟩
    · exact (valid_iff_meetsConstraints env _).2 ⟨a1, by show jsLength d ≤ 500; omega,
        a3, a4, a5, a6, a7⟩
    · refine (valid_iff_meetsConstraints env _).2 ⟨a1, a2, a3, a4, a5,
        ⟨by show 1 ≤ ts.length; omega, by show ts.length ≤ 10; omega⟩, ?_⟩
      intro t ht
      have := hall t ht
      omega
  · intro t ht
    apply hnot
    rintro ⟨⟨b1, b2⟩, _⟩
    change 3 ≤ jsLength t at b1
    change jsLength t ≤ 100 at b2
    omega
  · intro d hd
    apply hnot
    rintro ⟨_, b, _⟩
    change jsLength d ≤ 500 at b
    omega
  · intro ts hts
    apply hnot
    rintro ⟨_, _, _, _, _, ⟨_, b⟩, _⟩
    change ts.length ≤ 10 at b
    omega
  · rintro ts ⟨t, ht, hb⟩
    apply hnot
    rintro ⟨_, _, _, _, _, _, b⟩
    have := b t ht
    omega

/-- Witness for C2: the base payload of the self-check is accepted, so a title
of exactly three characters in its place is accepted too. -/
theorem validatePayload_valid_iff_witness :
    (validatePayload sampleEnv { basePayload with title := "abc" }).valid = true :=
  ((validatePayload_valid_iff sampleEnv basePayload).2.1 (by decide)).1 "abc" (by decide)

/-- Counterexample to C3: a payload whose tags are `aa` twice is accepted. -/
theorem validatePayload_accepts_duplicate_tags :
    (validatePayload sampleEnv { basePayload with tags := ["aa", "aa"] }).valid = true ∧
      ¬ ({ basePayload with tags := ["aa", "aa"] } : Payload).tags.Nodup := by
  constructor
  · decide
  · decide

/-- C3, amended: `validatePayload` checks the tags for their number and
their lengths only: an accepted payload has 1 to 10 tags of 2 to 20 characters
each, and repeating one of its tags (within the limit of 10) leaves it
accepted. -/
theorem validatePayload_valid_tags (env : Env) (p : Payload)
    (h : (validatePayload env p).valid = true) :
    ((1 ≤ p.tags.length ∧ p.tags.length ≤ 10) ∧
      ∀ t ∈ p.tags, 2 ≤ jsLength t ∧ jsLength t ≤ 20) ∧
    ∀ t ∈ p.tags, p.tags.length < 10 →
      (validatePayload env { p with tags := p.tags ++ [t] }).valid = true := by
  obtain ⟨a1, a2, a3, a4, a5, a6, a7⟩ := (valid_iff_meetsConstraints env p).1 h
  refine ⟨⟨a6, a7⟩, fun t ht hlen => ?_⟩
  refine (valid_iff_meetsConstraints env _).2 ⟨a1, a2, a3, a4, a5, ⟨?_, ?_⟩, ?_⟩
  · show 1 ≤ (p.tags ++ [t]).length
    simp
  · show (p.tags ++ [t]).length ≤ 10
    simp; omega
  · intro u hu
    have hu2 : u ∈ p.tags ++ [t] := hu
    rcases List.mem_append.1 hu2 with hu3 | hu3
    · exact a7 u hu3
    · have : u = t := by simpa using hu3
      subst this
      exact a7 u ht

/-- Witness for C3, amended: the accepted payload with the tags `aa`, `bb`. -/
theorem validatePayload_valid_tags_witness :
    ((1 ≤ ["aa", "bb"].length ∧ ["aa", "bb"].length ≤ 10) ∧
      ∀ t ∈ ["aa", "bb"], 2 ≤ jsLength t ∧ jsLength t ≤ 20) ∧
    ∀ t ∈ ["aa", "bb"], ["aa", "bb"].length < 10 →
      (validatePayload sampleEnv
        { basePayload with tags := ["aa", "bb"] ++ [t] }).valid = true :=
  validatePayload_valid_tags sampleEnv { basePayload with tags := ["aa", "bb"] } (by decide)

/-! ## Submit and response (C4, C5) -/

theorem renderEditTags_editTags (env : Env) (s : State) :
    (renderEditTags env s).editTags = s.editTags := by
  unfold renderEditTags
  split <;> rfl

theorem renderEditTags_tagInputValue (env : Env) (s : State) :
    (renderEditTags env s).tagInputValue = s.tagInputValue := by
  unfold renderEditTags
  split <;> rfl

theorem setEditMode_isEditing (env : Env) (value : Bool) (s : State) :
    (setEditMode env value s).isEditing = value := by
  unfold setEditMode
  cases env.editForm <;> cases env.detailSection <;> cases env.editBtn <;> rfl

theorem setEditMode_editTags (env : Env) (value : Bool) (s : State) :
    (setEditMode env value s).editTags = s.editTags := by
  unfold setEditMode
  cases env.editForm <;> cases env.detailSection <;> cases env.editBtn <;> rfl

theorem handleSubmit_invalid (env : Env) (s : State) (task : Task) (message : String)
    (field : Option FieldRef) (hsel : s.selectedTask = some task)
    (hv : validatePayload env (assemblePayload env s) = .invalid message field) :
    handleSubmit env s =
      { state := s,
        effects := [.preventDefault, .alert (.str message)] ++ focusEffects field,
        threw := false } := by
  unfold handleSubmit
  simp only [hsel, hv]

theorem handleSubmit_ok (env : Env) (s : State) (task : Task)
    (hsel : s.selectedTask = some task)
    (hv : validatePayload env (assemblePayload env s) = .ok) :
    handleSubmit env s =
      { state := s,
        effects := [.preventDefault, .send ("/tasks" ++ "/" ++ task.id) (assemblePayload env s)],
        threw := false } := by
  unfold handleSubmit
  simp only [hsel, hv]

/-- C4: fail closed.  With a task selected and the assembled payload rejected
by `validatePayload`, `handleSubmit` alerts exactly the validation message,
sends no update request, and leaves the edit mode flag and the edit tag list
(indeed the whole state) as they were. -/
theorem handleSubmit_fail_closed (env : Env) (s : State) (task : Task)
    (hsel : s.selectedTask = some task)
    (hinv : (validatePayload env (assemblePayload env s)).valid = false) :
    ∃ message, (validatePayload env (assemblePayload env s)).message = some message ∧
      alerts (handleSubmit env s).effects = [Json.str message] ∧
      requests (handleSubmit env s).effects = [] ∧
      (handleSubmit env s).state.isEditing = s.isEditing ∧
      (handleSubmit env s).state.editTags = s.editTags ∧
      (handleSubmit env s).state = s := by
  cases hv : validatePayload env (assemblePayload env s) with
  | ok => rw [hv] at hinv; exact absurd hinv (by decide)
  | invalid message field =>
    rw [handleSubmit_invalid env s task message field hsel hv]
    refine ⟨message, rfl, ?_, ?_, rfl, rfl, rfl⟩
    · cases field <;> rfl
    · cases field <;> rfl

/-- Witness for C4: the sample task in edit mode with its title blanked. -/
theorem handleSubmit_fail_closed_witness :
    ∃ message,
      (validatePayload sampleEnv
        (assemblePayload sampleEnv { sampleEditing with formTitle := "  " })).message
          = some message ∧
      alerts (handleSubmit sampleEnv { sampleEditing with formTitle := "  " }).effects
        = [Json.str message] ∧
      requests (handleSubmit sampleEnv { sampleEditing with formTitle := "  " }).effects = [] ∧
      (handleSubmit sampleEnv { sampleEditing with formTitle := "  " }).state.isEditing
        = ({ sampleEditing with formTitle := "  " } : State).isEditing ∧
      (handleSubmit sampleEnv { sampleEditing with formTitle := "  " }).state.editTags
        = ({ sampleEditing with formTitle := "  " } : State).editTags ∧
      (handleSubmit sampleEnv { sampleEditing with formTitle := "  " }).state
        = { sampleEditing with formTitle := "  " } :=
  handleSubmit_fail_closed sampleEnv { sampleEditing with formTitle := "  " } sampleTask
    (by decide) (by decide)

/-- Counterexample to C5: a 200 response whose message is the empty string is
answered with the alert "Task updated!" although the response has a message,
and a 200 response whose body is the JSON text `null` is answered with no
alert at all, edit mode staying on. -/
theorem onload_message_counterexample :
    ((parseResponse sampleEnv "\x7b\"message\":\"\"\x7d").getMessage
        = some (some (Json.str "")) ∧
      alerts (onload sampleEnv 200 "\x7b\"message\":\"\"\x7d" sampleEditing).effects
        = [Json.str "Task updated!"]) ∧
    (alerts (onload sampleEnv 200 "null" sampleEditing).effects = [] ∧
      (onload sampleEnv 200 "null" sampleEditing).threw = true ∧
      (onload sampleEnv 200 "null" sampleEditing).state.isEditing = true) := by
  refine ⟨⟨rfl, rfl⟩, rfl, rfl, rfl⟩

/-- C5, amended: for every response whose parsed body is not `null`: on
status 200 the client alerts the response's message when that is truthy and
"Task updated!" otherwise, and leaves edit mode; on any other status it alerts
the response's message when truthy and "Failed to update task." otherwise; on a
transport error it alerts "Failed to update task."; in both failure cases the
state, edit mode included, stays as it was. -/
theorem onload_alerts (env : Env) (status : Nat) (responseText : String) (s : State)
    (hbody : parseResponse env responseText ≠ Json.null) :
    ∃ message, (parseResponse env responseText).getMessage = some message ∧
      (status = 200 →
        alerts (onload env status responseText s).effects
          = [messageOr message "Task updated!"] ∧
        (onload env status responseText s).state = setEditMode env false s ∧
        (onload env status responseText s).state.isEditing = false) ∧
      (status ≠ 200 →
        (onload env status responseText s).effects
          = [Effect.alert (messageOr message "Failed to update task.")] ∧
        (onload env status responseText s).state = s) ∧
      (onerror s).effects = [Effect.alert (Json.str "Failed to update task.")] ∧
      (onerror s).state = s := by
  have hmsg : ∃ message, (parseResponse env responseText).getMessage = some message := by
    cases hp : parseResponse env responseText with
    | null => exact absurd hp hbody
    | bool b => exact ⟨_, rfl⟩
    | num n => exact ⟨_, rfl⟩
    | str t => exact ⟨_, rfl⟩
    | arr items => exact ⟨_, rfl⟩
    | obj members => exact ⟨_, rfl⟩
  obtain ⟨message, hm⟩ := hmsg
  refine ⟨message, hm, ?_, ?_, rfl, rfl⟩
  · intro h200
    subst h200
    unfold onload
    simp only [hm, beq_self_eq_true, if_true]
    cases env.viewTasks <;> cases env.viewTask <;>
      cases hsel : (setEditMode env false s).selectedTask <;>
      simp [alerts, setEditMode_isEditing]
  · intro hne
    unfold onload
    have : (status == 200) = false := by simpa using hne
    simp only [hm, this]
    exact ⟨rfl, rfl⟩

/-- Witness for C5, amended: a 500 response carrying "Server error". -/
theorem onload_alerts_witness :
    ∃ message,
      (parseResponse sampleEnv "\x7b\"message\":\"Server error\"\x7d").getMessage
        = some message ∧
      (500 = 200 →
        alerts (onload sampleEnv 500 "\x7b\"message\":\"Server error\"\x7d"
          sampleEditing).effects = [messageOr message "Task updated!"] ∧
        (onload sampleEnv 500 "\x7b\"message\":\"Server error\"\x7d" sampleEditing).state
          = setEditMode sampleEnv false sampleEditing ∧
        (onload sampleEnv 500 "\x7b\"message\":\"Server error\"\x7d"
          sampleEditing).state.isEditing = false) ∧
      (500 ≠ 200 →
        (onload sampleEnv 500 "\x7b\"message\":\"Server error\"\x7d" sampleEditing).effects
          = [Effect.alert (messageOr message "Failed to update task.")] ∧
        (onload sampleEnv 500 "\x7b\"message\":\"Server error\"\x7d" sampleEditing).state
          = sampleEditing) ∧
      (onerror sampleEditing).effects = [Effect.alert (Json.str "Failed to update task.")] ∧
      (onerror sampleEditing).state = sampleEditing :=
  onload_alerts sampleEnv 500 "\x7b\"message\":\"Server error\"\x7d" sampleEditing
    (by simp [parseResponse, truthy, sampleEnv, sampleJsonParse])

/-! ## The tag widget (C6 to C10) -/

theorem indexOf_beq_true (xs : List String) (v : String) :
    (indexOf xs v == -1) = true ↔ v ∉ xs := by
  rw [indexOf_beq]; simp

/-- The Enter branch of `handleTagKeydown` when the trimmed text is new. -/
theorem handleTagKeydown_enter_new (env : Env) (s : State)
    (h : jsTrim s.tagInputValue ≠ "" ∧ jsTrim s.tagInputValue ∉ s.editTags) :
    handleTagKeydown env "Enter" s =
      { state := { renderEditTags env
                    { s with editTags := s.editTags ++ [jsTrim s.tagInputValue] } with
                    tagInputValue := "" },
        effects := [.preventDefault], threw := false } := by
  have hc : (truthy (jsTrim s.tagInputValue) &&
      indexOf s.editTags (jsTrim s.tagInputValue) == -1) = true := by
    rw [Bool.and_eq_true, truthy_iff, indexOf_beq_true]
    exact h
  unfold handleTagKeydown
  simp only [if_true, hc]

/-- The Enter branch of `handleTagKeydown` when the trimmed text is empty or
already in the list. -/
theorem handleTagKeydown_enter_old (env : Env) (s : State)
    (h : ¬ (jsTrim s.tagInputValue ≠ "" ∧ jsTrim s.tagInputValue ∉ s.editTags)) :
    handleTagKeydown env "Enter" s =
      { state := { s with tagInputValue := "" },
        effects := [.preventDefault], threw := false } := by
  have hc : (truthy (jsTrim s.tagInputValue) &&
      indexOf s.editTags (jsTrim s.tagInputValue) == -1) = false := by
    rw [← Bool.not_eq_true, Bool.and_eq_true, truthy_iff, indexOf_beq_true]
    exact h
  unfold handleTagKeydown
  simp only [if_true, hc, Bool.false_eq_true, if_false]

/-- C6: on Enter, with `v` the trimmed text of the tag input: when `v` is
non-empty and no entry of the tag list equals `v`, the new tag list is the old
one with `v` appended at the end; otherwise the tag list is unchanged; in both
cases nothing is alerted and no exception escapes. -/
theorem handleTagKeydown_enter_appends (env : Env) (s : State) :
    (handleTagKeydown env "Enter" s).state.editTags =
        (if jsTrim s.tagInputValue ≠ "" ∧ jsTrim s.tagInputValue ∉ s.editTags
          then s.editTags ++ [jsTrim s.tagInputValue] else s.editTags) ∧
      alerts (handleTagKeydown env "Enter" s).effects = [] ∧
      (handleTagKeydown env "Enter" s).threw = false := by
  by_cases h : jsTrim s.tagInputValue ≠ "" ∧ jsTrim s.tagInputValue ∉ s.editTags
  · rw [handleTagKeydown_enter_new env s h, if_pos h]
    exact ⟨renderEditTags_editTags env _, rfl, rfl⟩
  · rw [handleTagKeydown_enter_old env s h, if_neg h]
    exact ⟨rfl, rfl, rfl⟩

theorem addTag_eq (env : Env) (text : String) (s : State) :
    addTag env text s = (handleTagKeydown env "Enter" { s with tagInputValue := text }).state :=
  rfl

theorem addTag_tagInputValue (env : Env) (text : String) (s : State) :
    (addTag env text s).tagInputValue = "" := by
  rw [addTag_eq]
  by_cases h : jsTrim text ≠ "" ∧ jsTrim text ∉ s.editTags
  · rw [handleTagKeydown_enter_new env _ h]
  · rw [handleTagKeydown_enter_old env _ h]

theorem addTag_present (env : Env) (text : String) (s : State) :
    ¬ (jsTrim text ≠ "" ∧ jsTrim text ∉ (addTag env text s).editTags) := by
  rw [addTag_eq]
  by_cases h : jsTrim text ≠ "" ∧ jsTrim text ∉ s.editTags
  · rw [handleTagKeydown_enter_new env _ h]
    show ¬ (_ ∧ _ ∉ (renderEditTags env _).editTags)
    rw [renderEditTags_editTags]
    simp
  · rw [handleTagKeydown_enter_old env _ h]
    exact h

/-- C7: adding a tag is idempotent: typing the same text and pressing Enter a
second time leaves the state of the first time, so the tag list and the number
of tag pills are those after the first Enter. -/
theorem addTag_idempotent (env : Env) (text : String) (s : State) :
    (addTag env text (addTag env text s)).editTags = (addTag env text s).editTags ∧
      (addTag env text (addTag env text s)).pills.length = (addTag env text s).pills.length ∧
      addTag env text (addTag env text s) = addTag env text s ∧
      (handleTagKeydown env "Enter" (addTag env text s)).state = addTag env text s := by
  have again : (handleTagKeydown env "Enter" (addTag env text s)).state = addTag env text s := by
    have hv := addTag_tagInputValue env text s
    have h : ¬ (jsTrim (addTag env text s).tagInputValue ≠ "" ∧
        jsTrim (addTag env text s).tagInputValue ∉ (addTag env text s).editTags) := by
      rw [hv]
      intro hc
      exact hc.1 rfl
    rw [handleTagKeydown_enter_old env _ h]
    show { addTag env text s with tagInputValue := "" } = addTag env text s
    cases hs : addTag env text s with
    | mk a b c d e f g h2 i j k l m =>
      rw [hs] at hv
      simp only at hv
      subst hv
      rfl
  have key : addTag env text (addTag env text s) = addTag env text s := by
    have h := addTag_present env text s
    have hv := addTag_tagInputValue env text s
    rw [addTag_eq env text (addTag env text s), handleTagKeydown_enter_old env _ h]
    show { { addTag env text s with tagInputValue := text } with tagInputValue := "" }
      = addTag env text s
    cases hs : addTag env text s with
    | mk a b c d e f g h2 i j k l m =>
      rw [hs] at hv
      simp only at hv
      subst hv
      rfl
  exact ⟨by rw [key], by rw [key], key, again⟩

theorem prepareEditForm_editTags (env : Env) (task : Task) (s : State)
    (hform : env.editForm = true) :
    (prepareEditForm env task s).editTags = task.tags.getD [] := by
  unfold prepareEditForm
  simp only [hform, Bool.not_true, Bool.false_eq_true, if_false]
  rw [setEditMode_editTags, renderEditTags_editTags]
  cases task.tags <;> rfl

/-- No action on the tag widget introduces a duplicate. -/
theorem step_nodup (env : Env) (s : State) (a : Action) (h : s.editTags.Nodup) :
    (step env s a).editTags.Nodup := by
  cases a with
  | typeText text => exact h
  | keydown key =>
    show (handleTagKeydown env key s).state.editTags.Nodup
    unfold handleTagKeydown
    by_cases hk : key = "Enter"
    · simp only [hk, if_true]
      by_cases hc : (truthy (jsTrim s.tagInputValue) &&
          indexOf s.editTags (jsTrim s.tagInputValue) == -1) = true
      · simp only [hc, if_true]
        rw [renderEditTags_editTags]
        have hnew : jsTrim s.tagInputValue ∉ s.editTags :=
          (indexOf_beq_true _ _).1 (Bool.and_eq_true_iff.1 hc).2
        exact List.Nodup.append h (List.nodup_singleton _) (by simpa using hnew)
      · simp only [hc, Bool.false_eq_true, if_false]
        exact h
    · simp only [hk, if_false]
      split
      · rw [renderEditTags_editTags]
        exact List.Nodup.sublist (List.dropLast_sublist _) h
      · exact h
  | clickRemove k =>
    show (removePillClick env k s).state.editTags.Nodup
    unfold removePillClick
    split
    · exact h
    · rw [renderEditTags_editTags]
      exact List.Nodup.sublist (List.eraseIdx_sublist _ _) h

theorem run_nodup (env : Env) (actions : List Action) (s : State) (h : s.editTags.Nodup) :
    (run env s actions).editTags.Nodup := by
  induction actions generalizing s with
  | nil => exact h
  | cons a rest ih => exact ih (step env s a) (step_nodup env s a h)

/-- Counterexample to C8: opening a task whose stored tags are `a` twice puts
a tag list with two equal entries into the edit session. -/
theorem editTags_duplicates_from_task :
    ¬ (run sampleEnv
        (prepareEditForm sampleEnv { sampleTask with tags := some ["a", "a"] } initialState)
        []).editTags.Nodup := by
  decide

/-- C8, amended: on a page with the edit form, in every state reached from
`prepareEditForm` on a task whose tags hold no two equal entries (or are not
an array) by any sequence of typing, key presses and pill removals, the edit
tag list holds no two equal entries. -/
theorem editTags_nodup_of_task_nodup (env : Env) (task : Task) (s : State)
    (actions : List Action) (hform : env.editForm = true)
    (htask : ∀ tags, task.tags = some tags → tags.Nodup) :
    (run env (prepareEditForm env task s) actions).editTags.Nodup := by
  apply run_nodup
  rw [prepareEditForm_editTags env task s hform]
  cases ht : task.tags with
  | none => exact List.nodup_nil
  | some tags => exact htask tags ht

/-- Witness for C8, amended: the sample task, then an added tag, a repeated
add, a pill removal and a Backspace. -/
theorem editTags_nodup_of_task_nodup_witness :
    (run sampleEnv (prepareEditForm sampleEnv sampleTask initialState)
      [.typeText "new", .keydown "Enter", .typeText "new", .keydown "Enter",
       .clickRemove 0, .keydown "Backspace"]).editTags.Nodup :=
  editTags_nodup_of_task_nodup sampleEnv sampleTask initialState _ rfl
    (fun tags h => by
      have : tags = ["sample"] := (Option.some.inj h).symm
      subst this
      decide)

/-- Counterexample to C9: with no tags, Backspace in the empty tag input
removes nothing: the list is as long as before. -/
theorem backspace_on_empty_list :
    initialState.tagInputValue = "" ∧ initialState.editTags = [] ∧
      (handleTagKeydown sampleEnv "Backspace" initialState).state.editTags = [] ∧
      (handleTagKeydown sampleEnv "Backspace" initialState).state.editTags.length + 1
        ≠ initialState.editTags.length := by
  decide

/-- C9, amended: Backspace while the tag input is empty pops the tag list: a
non-empty list loses exactly its last entry, the other tags staying in order,
and the empty list stays empty. -/
theorem handleTagKeydown_backspace_pops (env : Env) (s : State) (hinput : s.tagInputValue = "") :
    (handleTagKeydown env "Backspace" s).state.editTags = s.editTags.dropLast ∧
      (s.editTags ≠ [] →
        (∃ last, s.editTags.getLast? = some last ∧
          s.editTags = (handleTagKeydown env "Backspace" s).state.editTags ++ [last]) ∧
        (handleTagKeydown env "Backspace" s).state.editTags.length + 1 = s.editTags.length) ∧
      (s.editTags = [] → (handleTagKeydown env "Backspace" s).state.editTags = []) := by
  have h1 : (handleTagKeydown env "Backspace" s).state.editTags = s.editTags.dropLast := by
    unfold handleTagKeydown
    have hne : ¬ ("Backspace" = "Enter") := by decide
    simp only [hne, if_false, hinput, truthy]
    exact renderEditTags_editTags env _
  refine ⟨h1, fun hne => ?_, fun he => ?_⟩
  · rw [h1]
    refine ⟨⟨s.editTags.getLast hne, List.getLast?_eq_getLast _ hne,
      (List.dropLast_append_getLast hne).symm⟩, ?_⟩
    rw [List.length_dropLast]
    have := List.length_pos.2 hne
    omega
  · rw [h1, he]
    rfl

/-- Witness for C9, amended: Backspace after two tags were added. -/
theorem handleTagKeydown_backspace_pops_witness :
    (handleTagKeydown sampleEnv "Backspace"
        (addTag sampleEnv "two" (addTag sampleEnv "one" initialState))).state.editTags
      = ["one"] :=
  (handleTagKeydown_backspace_pops sampleEnv
    (addTag sampleEnv "two" (addTag sampleEnv "one" initialState)) (by decide)).1.trans
    (by decide)

theorem pillsFrom_get? (xs : List String) (i k : Nat) :
    (pillsFrom i xs).get? k = (xs.get? k).map (fun t => { text := t, index := i + k }) := by
  induction xs generalizing i k with
  | nil => rfl
  | cons x rest ih =>
    cases k with
    | zero => rfl
    | succ k =>
      show (pillsFrom (i + 1) rest).get? k = _
      rw [ih (i + 1) k]
      simp only [List.get?_cons_succ]
      congr 1
      funext t
      congr 1
      omega

theorem removePillClick_inSync (env : Env) (k : Nat) (s : State)
    (henv : env.tagContainer = true ∧ env.tagInput = true) (hsync : pillsInSync s) :
    (removePillClick env k s).state.editTags = s.editTags.eraseIdx k ∧
      pillsInSync (removePillClick env k s).state := by
  unfold removePillClick
  unfold pillsInSync at hsync
  rw [hsync, pillsFrom_get?]
  cases hk : s.editTags.get? k with
  | none =>
    have hlen : s.editTags.length ≤ k := by
      by_contra hc
      have := List.get?_eq_get (Nat.lt_of_not_le hc)
      rw [this] at hk
      exact Option.noConfusion hk
    simp only [Option.map_none']
    exact ⟨(List.eraseIdx_of_length_le hlen).symm, hsync⟩
  | some t =>
    simp only [Option.map_some', Nat.zero_add]
    constructor
    · exact renderEditTags_editTags env _
    · unfold pillsInSync renderEditTags
      simp only [henv.1, henv.2, Bool.not_true, Bool.or_self, Bool.false_eq_true, if_false]

theorem run_clicks (env : Env) (ks : List Nat) (s : State)
    (henv : env.tagContainer = true ∧ env.tagInput = true) (hsync : pillsInSync s) :
    (run env s (ks.map Action.clickRemove)).editTags
      = ks.foldl (fun tags k => tags.take k ++ tags.drop (k + 1)) s.editTags := by
  induction ks generalizing s with
  | nil => rfl
  | cons k rest ih =>
    have hstep := removePillClick_inSync env k s henv hsync
    show (run env (removePillClick env k s).state (rest.map Action.clickRemove)).editTags = _
    rw [ih _ hstep.2, hstep.1, List.eraseIdx_eq_take_drop_succ]
    rfl

theorem run_clicks_first (env : Env) (n : Nat) (s : State)
    (henv : env.tagContainer = true ∧ env.tagInput = true) (hsync : pillsInSync s)
    (hn : s.editTags.length = n) :
    (run env s (List.replicate n (Action.clickRemove 0))).editTags = [] := by
  induction n generalizing s with
  | zero => exact List.length_eq_zero.1 hn
  | succ n ih =>
    have hstep := removePillClick_inSync env 0 s henv hsync
    show (run env (removePillClick env 0 s).state
      (List.replicate n (Action.clickRemove 0))).editTags = []
    apply ih _ hstep.2
    rw [hstep.1]
    cases hl : s.editTags with
    | nil => rw [hl] at hn; simp at hn
    | cons t rest =>
      rw [hl] at hn
      simpa using hn

/-- C10: with the pills drawn for the current tag list, a click on the
remove control of the pill at position `i` leaves the list with exactly the
entry at position `i` deleted and the others in their order; the pills are
drawn anew for the new list, so the same holds click after click for every
sequence of removals, and removing the first pill as many times as there are
tags empties the list. -/
theorem removePillClick_removes (env : Env) (s : State) (i : Nat)
    (henv : env.tagContainer = true ∧ env.tagInput = true) (hsync : pillsInSync s)
    (hi : i < s.editTags.length) :
    (removePillClick env i s).state.editTags = s.editTags.take i ++ s.editTags.drop (i + 1) ∧
      (removePillClick env i s).state.editTags.length + 1 = s.editTags.length ∧
      pillsInSync (removePillClick env i s).state ∧
      (∀ ks : List Nat,
        (run env s (ks.map Action.clickRemove)).editTags
          = ks.foldl (fun tags k => tags.take k ++ tags.drop (k + 1)) s.editTags) ∧
      (run env s (List.replicate s.editTags.length (Action.clickRemove 0))).editTags = [] := by
  have hstep := removePillClick_inSync env i s henv hsync
  refine ⟨?_, ?_, hstep.2, fun ks => run_clicks env ks s henv hsync,
    run_clicks_first env _ s henv hsync rfl⟩
  · rw [hstep.1, List.eraseIdx_eq_take_drop_succ]
  · rw [hstep.1, List.length_eraseIdx]
    simp only [hi, if_true]
    omega

/-- Witness for C10: from the tags `a`, `b`, `c` the middle pill is removed. -/
theorem removePillClick_removes_witness :
    (removePillClick sampleEnv 1
        (prepareEditForm sampleEnv { sampleTask with tags := some ["a", "b", "c"] }
          initialState)).state.editTags = ["a", "c"] :=
  (removePillClick_removes sampleEnv
    (prepareEditForm sampleEnv { sampleTask with tags := some ["a", "b", "c"] } initialState) 1
    ⟨rfl, rfl⟩ (by unfold pillsInSync; decide) (by decide)).1.trans (by decide)

/-! ## Focus target, response parsing and form defaults (C11 to C15) -/

theorem ruleField_eq_offendingField (env : Env) (i : Nat) (hi1 : 1 ≤ i) (hi : i ≤ 11)
    (hform : env.editForm = true) (htag : env.tagInput = true) :
    ruleField env i = some (offendingField i) := by
  interval_cases i <;> simp [ruleField, offendingField, formField, tagInputField, hform, htag]

/-- C11: whenever `validatePayload` rejects a payload, the field it returns
is the control of the rule that fired (the lowest-numbered rule met): on a page
with the edit form and the tag input this is the title input for the three
title rules, the description input for the description rule, the priority and
status selects for their rules, the due-date input for both due-date rules and
the tag input for the three tag rules. -/
theorem validatePayload_field (env : Env) (p : Payload)
    (hrej : (validatePayload env p).valid = false) :
    ∃ i, (1 ≤ i ∧ i ≤ 11) ∧ ruleCondition env p i = true ∧
      (∀ j, 1 ≤ j → j < i → ruleCondition env p j = false) ∧
      (validatePayload env p).message = some (ruleMessage i) ∧
      (validatePayload env p).field = ruleField env i ∧
      (env.editForm = true → env.tagInput = true →
        (validatePayload env p).field = some (offendingField i)) := by
  have hex : ∃ i, ruleCondition env p i = true := by
    by_contra hc
    have hall : ∀ i, ruleCondition env p i = false := by
      intro i
      cases h : ruleCondition env p i with
      | false => rfl
      | true => exact absurd ⟨i, h⟩ hc
    rw [(valid_iff_no_rule env p).2 hall] at hrej
    exact Bool.noConfusion hrej
  obtain ⟨i, hi, hlow, hres⟩ := validatePayload_least env p hex
  have hr := ruleCondition_range env p i hi
  refine ⟨i, hr, hi, hlow, ?_, ?_, ?_⟩
  · rw [hres]; rfl
  · rw [hres]; rfl
  · intro hform htag
    rw [hres]
    exact ruleField_eq_offendingField env i hr.1 hr.2 hform htag

/-- Witness for C11: eleven tags on the base payload fire rule 10, whose field
is the tag input. -/
theorem validatePayload_field_witness :
    ∃ i, (1 ≤ i ∧ i ≤ 11) ∧
      ruleCondition sampleEnv { basePayload with tags := List.replicate 11 "tag" } i = true ∧
      (∀ j, 1 ≤ j → j < i →
        ruleCondition sampleEnv { basePayload with tags := List.replicate 11 "tag" } j
          = false) ∧
      (validatePayload sampleEnv { basePayload with tags := List.replicate 11 "tag" }).message
        = some (ruleMessage i) ∧
      (validatePayload sampleEnv { basePayload with tags := List.replicate 11 "tag" }).field
        = ruleField sampleEnv i ∧
      (sampleEnv.editForm = true → sampleEnv.tagInput = true →
        (validatePayload sampleEnv { basePayload with tags := List.replicate 11 "tag" }).field
          = some (offendingField i)) :=
  validatePayload_field sampleEnv { basePayload with tags := List.replicate 11 "tag" }
    (by decide)

/-- C12: `parseResponse` always returns a value: the empty object for the
empty text and for every text `JSON.parse` rejects, the parsed value for a
(non-empty) text that parses. -/
theorem parseResponse_cases (env : Env) (text : String) :
    (text = "" → parseResponse env text = Json.obj []) ∧
      (env.jsonParse text = none → parseResponse env text = Json.obj []) ∧
      (∀ v, text ≠ "" → env.jsonParse text = some v → parseResponse env text = v) := by
  refine ⟨fun h => ?_, fun h => ?_, fun v hne h => ?_⟩
  · subst h
    rfl
  · unfold parseResponse
    rw [h]
    split <;> rfl
  · unfold parseResponse
    rw [h, (truthy_iff text).2 hne]
    rfl

/-- Witness for C12: the text `null` parses, and its value is returned. -/
theorem parseResponse_cases_witness : parseResponse sampleEnv "null" = Json.null :=
  (parseResponse_cases sampleEnv "null").2.2 Json.null (by decide) rfl

/-- Counterexample to C13: a 500 response whose body is not JSON is answered
with the alert "Failed to update task." and edit mode stays on. -/
theorem onload_500_body_not_json :
    sampleEnv.jsonParse "not valid json" = none ∧
      alerts (onload sampleEnv 500 "not valid json" sampleEditing).effects
        = [Json.str "Failed to update task."] ∧
      sampleEditing.isEditing = true ∧
      (onload sampleEnv 500 "not valid json" sampleEditing).state.isEditing = true := by
  refine ⟨rfl, rfl, rfl, rfl⟩

theorem parseResponse_of_parse_none (env : Env) (text : String)
    (h : env.jsonParse text = none) : parseResponse env text = Json.obj [] := by
  unfold parseResponse
  rw [h]
  split <;> rfl

/-- C13, amended: when the response body fails to parse as JSON the client
goes on with the empty object: with status 200 it alerts "Task updated!" and
leaves edit mode; with any other status it alerts "Failed to update task." and
the state, edit mode included, stays as it was. -/
theorem onload_malformed (env : Env) (status : Nat) (responseText : String) (s : State)
    (hparse : env.jsonParse responseText = none) :
    (status = 200 →
        alerts (onload env status responseText s).effects = [Json.str "Task updated!"] ∧
        (onload env status responseText s).state.isEditing = false) ∧
      (status ≠ 200 →
        (onload env status responseText s).effects
          = [Effect.alert (Json.str "Failed to update task.")] ∧
        (onload env status responseText s).state = s) := by
  have hp := parseResponse_of_parse_none env responseText hparse
  have hm : (parseResponse env responseText).getMessage = some none := by
    rw [hp]; rfl
  constructor
  · intro h200
    subst h200
    unfold onload
    simp only [hm, beq_self_eq_true, if_true]
    cases env.viewTasks <;> cases env.viewTask <;>
      cases hsel : (setEditMode env false s).selectedTask <;>
      simp [alerts, setEditMode_isEditing, messageOr]
  · intro hne
    unfold onload
    have : (status == 200) = false := by simpa using hne
    simp only [hm, this]
    exact ⟨rfl, rfl⟩

/-- Witness for C13, amended: the malformed body of the end-to-end test, with
status 200. -/
theorem onload_malformed_witness :
    alerts (onload sampleEnv 200 "not valid json" sampleEditing).effects
      = [Json.str "Task updated!"] ∧
    (onload sampleEnv 200 "not valid json" sampleEditing).state.isEditing = false :=
  (onload_malformed sampleEnv 200 "not valid json" sampleEditing rfl).1 rfl

theorem orDefault_empty (v : Option String) : orDefault v "" = v.getD "" := by
  cases v with
  | none => rfl
  | some t =>
    unfold orDefault
    by_cases h : t = ""
    · subst h; rfl
    · simp [truthy, h]

theorem setEditMode_form (env : Env) (value : Bool) (s : State) :
    (setEditMode env value s).formTitle = s.formTitle ∧
      (setEditMode env value s).formDescription = s.formDescription ∧
      (setEditMode env value s).formPriority = s.formPriority ∧
      (setEditMode env value s).formStatus = s.formStatus ∧
      (setEditMode env value s).formDueDate = s.formDueDate := by
  unfold setEditMode
  cases env.editForm <;> cases env.detailSection <;> cases env.editBtn <;>
    exact ⟨rfl, rfl, rfl, rfl, rfl⟩

theorem renderEditTags_form (env : Env) (s : State) :
    (renderEditTags env s).formTitle = s.formTitle ∧
      (renderEditTags env s).formDescription = s.formDescription ∧
      (renderEditTags env s).formPriority = s.formPriority ∧
      (renderEditTags env s).formStatus = s.formStatus ∧
      (renderEditTags env s).formDueDate = s.formDueDate := by
  unfold renderEditTags
  split <;> exact ⟨rfl, rfl, rfl, rfl, rfl⟩

/-- What `prepareEditForm` leaves in the form controls on a page with the
edit form. -/
theorem prepareEditForm_form (env : Env) (task : Task) (s : State)
    (hform : env.editForm = true) :
    (prepareEditForm env task s).formTitle = orDefault task.title "" ∧
      (prepareEditForm env task s).formDescription = orDefault task.description "" ∧
      (prepareEditForm env task s).formPriority
        = env.toLowerCase (orDefault task.priority "medium") ∧
      (prepareEditForm env task s).formStatus
        = env.toLowerCase (orDefault task.status "pending") ∧
      (prepareEditForm env task s).formDueDate = env.formatDateForInput task.dueDate := by
  unfold prepareEditForm
  simp only [hform, Bool.not_true, Bool.false_eq_true, if_false]
  obtain ⟨a1, a2, a3, a4, a5⟩ := setEditMode_form env false
    (renderEditTags env
      { s with formTitle := orDefault task.title "",
               formDescription := orDefault task.description "",
               formPriority := env.toLowerCase (orDefault task.priority "medium"),
               formStatus := env.toLowerCase (orDefault task.status "pending"),
               formDueDate := env.formatDateForInput task.dueDate,
               editTags := match task.tags with
                           | some tags => tags
                           | none => [] })
  obtain ⟨b1, b2, b3, b4, b5⟩ := renderEditTags_form env
      { s with formTitle := orDefault task.title "",
               formDescription := orDefault task.description "",
               formPriority := env.toLowerCase (orDefault task.priority "medium"),
               formStatus := env.toLowerCase (orDefault task.status "pending"),
               formDueDate := env.formatDateForInput task.dueDate,
               editTags := match task.tags with
                           | some tags => tags
                           | none => [] }
  exact ⟨a1.trans b1, a2.trans b2, a3.trans b3, a4.trans b4, a5.trans b5⟩

/-- C14: on a page with the edit form, on a host whose `toLowerCase` leaves
the words `medium` and `pending` as they are, `prepareEditForm` fills the form
with the task's title and, for a description, priority, status or tags that are
null or missing, with the description "", the priority "medium", the status
"pending" and the empty tag list (tags that are not an array become `[]`);
edit mode is off afterwards; for a task with an array of tags the edit tag list
is that array, entry by entry in the same order. -/
theorem prepareEditForm_defaults (env : Env) (task : Task) (s : State)
    (hform : env.editForm = true)
    (hmedium : env.toLowerCase "medium" = "medium")
    (hpending : env.toLowerCase "pending" = "pending") :
    (prepareEditForm env task s).formTitle = task.title.getD "" ∧
      (task.description = none → (prepareEditForm env task s).formDescription = "") ∧
      (task.priority = none → (prepareEditForm env task s).formPriority = "medium") ∧
      (task.status = none → (prepareEditForm env task s).formStatus = "pending") ∧
      (task.tags = none → (prepareEditForm env task s).editTags = []) ∧
      (prepareEditForm env task s).isEditing = false ∧
      (∀ tags, task.tags = some tags → (prepareEditForm env task s).editTags = tags) := by
  obtain ⟨f1, f2, f3, f4, _⟩ := prepareEditForm_form env task s hform
  have ht := prepareEditForm_editTags env task s hform
  refine ⟨?_, ?_, ?_, ?_, ?_, ?_, ?_⟩
  · rw [f1, orDefault_empty]
  · intro h
    rw [f2, h]
    rfl
  · intro h
    rw [f3, h]
    exact hmedium
  · intro h
    rw [f4, h]
    exact hpending
  · intro h
    rw [ht, h]
    rfl
  · unfold prepareEditForm
    simp only [hform, Bool.not_true, Bool.false_eq_true, if_false]
    exact setEditMode_isEditing env false _
  · intro tags h
    rw [ht, h]
    rfl

/-- Witness for C14: a task that has a title and nothing else. -/
theorem prepareEditForm_defaults_witness :
    (prepareEditForm sampleEnv
        { id := "7", title := some "Minimal Task", description := none, priority := none,
          status := none, dueDate := none, tags := none } sampleEditing).formPriority
      = "medium" :=
  (prepareEditForm_defaults sampleEnv
    { id := "7", title := some "Minimal Task", description := none, priority := none,
      status := none, dueDate := none, tags := none } sampleEditing rfl (by decide)
    (by decide)).2.2.1 rfl

/-- C15: priority and status are lower-cased on input: when the lower-cased
priority of the form is one of low, medium, high and the lower-cased status is
one of pending, in-progress, completed, the payload `handleSubmit` assembles
carries the lower-cased values, and `validatePayload` reports neither "Select a
valid priority" nor "Select a valid status" (the host's `toLowerCase` maps the
empty text to itself). -/
theorem assemblePayload_lowercase (env : Env) (s : State)
    (hhost : env.toLowerCase "" = "")
    (hpriority : env.toLowerCase s.formPriority ∈ ["low", "medium", "high"])
    (hstatus : env.toLowerCase s.formStatus ∈ ["pending", "in-progress", "completed"]) :
    (assemblePayload env s).priority = env.toLowerCase s.formPriority ∧
      (assemblePayload env s).status = env.toLowerCase s.formStatus ∧
      (validatePayload env (assemblePayload env s)).message ≠ some "Select a valid priority" ∧
      (validatePayload env (assemblePayload env s)).message ≠ some "Select a valid status" := by
  have hp0 : s.formPriority ≠ "" := by
    intro h
    rw [h, hhost] at hpriority
    revert hpriority
    decide
  have hs0 : s.formStatus ≠ "" := by
    intro h
    rw [h, hhost] at hstatus
    revert hstatus
    decide
  have hp : (assemblePayload env s).priority = env.toLowerCase s.formPriority := by
    show env.toLowerCase (if truthy s.formPriority = true then s.formPriority else "medium") = _
    rw [if_pos ((truthy_iff _).2 hp0)]
  have hs : (assemblePayload env s).status = env.toLowerCase s.formStatus := by
    show env.toLowerCase (if truthy s.formStatus = true then s.formStatus else "pending") = _
    rw [if_pos ((truthy_iff _).2 hs0)]
  have h5 : ruleCondition env (assemblePayload env s) 5 = false := by
    show decide ((assemblePayload env s).priority ∉ ["low", "medium", "high"]) = false
    rw [hp]
    exact decide_eq_false (not_not.2 hpriority)
  have h6 : ruleCondition env (assemblePayload env s) 6 = false := by
    show decide ((assemblePayload env s).status ∉ ["pending", "in-progress", "completed"])
      = false
    rw [hs]
    exact decide_eq_false (not_not.2 hstatus)
  have key : ∀ k, (k = 5 ∨ k = 6) →
      (validatePayload env (assemblePayload env s)).message ≠ some (ruleMessage k) := by
    intro k hk hm
    cases hv : (validatePayload env (assemblePayload env s)).valid with
    | true =>
      have hok : validatePayload env (assemblePayload env s) = .ok := by
        cases hres : validatePayload env (assemblePayload env s) with
        | ok => rfl
        | invalid m f => rw [hres] at hv; exact Bool.noConfusion hv
      rw [hok] at hm
      exact Option.noConfusion hm
    | false =>
      have hex : ∃ i, ruleCondition env (assemblePayload env s) i = true := by
        by_contra hc
        have hall : ∀ i, ruleCondition env (assemblePayload env s) i = false := by
          intro i
          cases h : ruleCondition env (assemblePayload env s) i with
          | false => rfl
          | true => exact absurd ⟨i, h⟩ hc
        rw [(valid_iff_no_rule env _).2 hall] at hv
        exact Bool.noConfusion hv
      obtain ⟨i, hi, _, hres⟩ := validatePayload_least env _ hex
      have hr := ruleCondition_range env _ i hi
      rw [hres] at hm
      have hik : i = k :=
        ruleMessage_injective i k hr.1 hr.2 (by omega) (by omega) (Option.some.inj hm)
      rcases hk with hk | hk
      · rw [hik, hk, h5] at hi
        exact Bool.noConfusion hi
      · rw [hik, hk, h6] at hi
        exact Bool.noConfusion hi
  exact ⟨hp, hs, key 5 (Or.inl rfl), key 6 (Or.inr rfl)⟩

/-- Witness for C15: the form holds `HIGH` and `In-Progress`. -/
theorem assemblePayload_lowercase_witness :
    (assemblePayload sampleEnv
        { sampleEditing with formPriority := "HIGH", formStatus := "In-Progress" }).priority
      = "high" :=
  (assemblePayload_lowercase sampleEnv
    { sampleEditing with formPriority := "HIGH", formStatus := "In-Progress" }
    (by decide) (by decide) (by decide)).1.trans (by decide)

/-! ## The coverage server's `PUT /tasks/:id` (C16 to C20) -/

namespace Server

theorem lookupMember_cons (a : String × Json) (members : List (String × Json)) (key : String) :
    lookupMember (a :: members) key
      = (lookupMember members key).or (if a.1 = key then some a.2 else none) := by
  unfold lookupMember
  rw [List.reverse_cons, List.find?_append]
  cases h : List.find? (fun kv => kv.1 == key) members.reverse with
  | some b => rfl
  | none =>
    by_cases hk : a.1 = key
    · simp [hk]
    · simp [hk]

theorem lookupMember_append_single (members : List (String × Json)) (k : String) (v : Json)
    (key : String) :
    lookupMember (members ++ [(k, v)]) key
      = if k = key then some v else lookupMember members key := by
  unfold lookupMember
  rw [List.reverse_append]
  by_cases hk : k = key
  · simp [hk]
  · simp [hk]

theorem lookupMember_eq_none (members : List (String × Json)) (key : String) :
    lookupMember members key = none ↔ members.any (fun kv => kv.1 == key) = false := by
  induction members with
  | nil => simp [lookupMember]
  | cons a rest ih =>
    rw [lookupMember_cons, List.any_cons]
    by_cases hk : a.1 = key
    · simp [hk]
    · simp [hk, ih]

theorem lookupMember_replace (members : List (String × Json)) (k : String) (v : Json)
    (key : String) :
    lookupMember (members.map (fun kv => if kv.1 == k then (kv.1, v) else kv)) key
      = if k = key then (lookupMember members key).map (fun _ => v)
        else lookupMember members key := by
  induction members with
  | nil => simp [lookupMember]
  | cons a rest ih =>
    rw [List.map_cons, lookupMember_cons, lookupMember_cons, ih]
    by_cases hk : k = key
    · subst hk
      by_cases ha : a.1 = k
      · simp [ha]
        cases lookupMember rest k <;> rfl
      · simp [ha]
    · by_cases ha : a.1 = k
      · have hne : ¬ a.1 = key := fun e => hk (ha.symm.trans e)
        simp [hk, ha, hne]
      · simp [hk, ha]

/-- Reading a property after the assignment `target[k] = v`. -/
theorem lookupMember_setMember (members : List (String × Json)) (k : String) (v : Json)
    (key : String) :
    lookupMember (setMember members k v) key
      = if k = key then some v else lookupMember members key := by
  unfold setMember
  by_cases hany : members.any (fun kv => kv.1 == k) = true
  · rw [if_pos hany, lookupMember_replace]
    by_cases hk : k = key
    · subst hk
      simp only [if_true]
      cases hl : lookupMember members k with
      | some b => rfl
      | none =>
        rw [(lookupMember_eq_none members k).1 hl] at hany
        exact Bool.noConfusion hany
    · simp [hk]
  · rw [if_neg hany, lookupMember_append_single]

/-- Reading a property of a spread: the source's value when the source has the
property, the target's otherwise. -/
theorem lookupMember_spread (source target : List (String × Json)) (key : String) :
    lookupMember (spread target source) key
      = (lookupMember source key).or (lookupMember target key) := by
  induction source generalizing target with
  | nil => simp [spread, lookupMember]
  | cons a rest ih =>
    show lookupMember (spread (setMember target a.1 a.2) rest) key = _
    rw [ih, lookupMember_setMember, lookupMember_cons]
    cases lookupMember rest key with
    | some b => rfl
    | none =>
      by_cases hk : a.1 = key
      · simp [hk]
      · simp [hk]

/-- Reading a property of the merged record of an object. -/
theorem get_mergeRecord (members : List (String × Json)) (body : Body) (key : String) :
    get (mergeRecord (.obj members) body) key
      = (lookupMember body.entries key).or (lookupMember members key) := by
  show lookupMember (spread (spread [] members) body.entries) key = _
  rw [lookupMember_spread, lookupMember_spread]
  cases lookupMember body.entries key with
  | some b => rfl
  | none =>
    cases lookupMember members key <;> rfl

theorem findIndexFrom_some (id : String) (tasks : List Json) (i index : Nat)
    (h : findIndexFrom id tasks i = some (some index)) :
    i ≤ index ∧ ∃ members, tasks.get? (index - i) = some (.obj members) ∧
      lookupMember members "id" = some (.str id) := by
  induction tasks generalizing i with
  | nil => simp [findIndexFrom] at h
  | cons t rest ih =>
    unfold findIndexFrom at h
    cases hm : idMatches id t with
    | none => rw [hm] at h; simp at h
    | some b =>
      rw [hm] at h
      cases b with
      | true =>
        simp only [Option.some.injEq] at h
        subst h
        refine ⟨le_refl _, ?_⟩
        cases t with
        | obj members =>
          refine ⟨members, by simp, ?_⟩
          cases hl : lookupMember members "id" with
          | none => simp [idMatches, hl] at hm
          | some v =>
            cases v with
            | str s =>
              simp only [idMatches, hl, Option.some.injEq, beq_iff_eq] at hm
              rw [hm]
            | null => simp [idMatches, hl] at hm
            | bool b => simp [idMatches, hl] at hm
            | num n => simp [idMatches, hl] at hm
            | arr items => simp [idMatches, hl] at hm
            | obj ms => simp [idMatches, hl] at hm
        | null => simp [idMatches] at hm
        | bool b => simp [idMatches] at hm
        | num n => simp [idMatches] at hm
        | str s => simp [idMatches] at hm
        | arr items => simp [idMatches] at hm
      | false =>
        simp only at h
        obtain ⟨hle, members, hget, hid⟩ := ih (i + 1) h
        refine ⟨by omega, members, ?_, hid⟩
        have : index - i = (index - (i + 1)) + 1 := by omega
        rw [this, List.get?_cons_succ]
        exact hget

/-- A record found by `findIndex` is an object whose `id` is the path id as a
string. -/
theorem findIndex_some (id : String) (tasks : List Json) (index : Nat)
    (h : findIndex id tasks = some (some index)) :
    ∃ members, tasks.get? index = some (.obj members) ∧
      lookupMember members "id" = some (.str id) := by
  obtain ⟨_, members, hget, hid⟩ := findIndexFrom_some id tasks 0 index h
  exact ⟨members, by simpa using hget, hid⟩

/-- The successful branch of the route. -/
theorem putTask_found (store : Store) (id : String) (body : Body) (data : Json)
    (tasks : List Json) (index : Nat) (record : Json)
    (hread : store.read = .ok data) (htasks : tasksOf data = some tasks)
    (hfind : findIndex id tasks = some (some index))
    (hrecord : tasks.get? index = some record) (hwrite : store.writeError = none) :
    putTask store id body =
      { response := { status := 200, body := mergeRecord record body },
        written := some (withTasks data (tasks.set index (mergeRecord record body))) } := by
  unfold putTask
  simp only [hread, htasks, hfind, hrecord, hwrite, Option.getD_some]

/-- C16, at the failing input: the stored task of the unit test (id `5` as a
string) updated with the body `{title:"", description:null, dueDate:"",
status:""}` is answered with status 200 and a merged record whose title, due
date and status are empty and whose description is `null`: the falsy values
of the body replaced the stored ones. -/
theorem putTask_falsy_overrides_written :
    (putTask (storeOf [keepTask]) "5" falsyBody).response.status = 200 ∧
      (putTask (storeOf [keepTask]) "5" falsyBody).response.body =
        .obj [("id", .str "5"), ("title", .str ""), ("description", .null),
          ("priority", .str "medium"), ("dueDate", .str ""),
          ("tags", .arr [.str "existing"]), ("status", .str "")] ∧
      get keepTask "title" = some (.str "Keep Title") ∧
      get (putTask (storeOf [keepTask]) "5" falsyBody).response.body "title"
        = some (.str "") ∧
      (putTask (storeOf [keepTask]) "5" falsyBody).written =
        some (.obj [("tasks", .arr [.obj [("id", .str "5"), ("title", .str ""),
          ("description", .null), ("priority", .str "medium"), ("dueDate", .str ""),
          ("tags", .arr [.str "existing"]), ("status", .str "")]])]) := by
  refine ⟨rfl, rfl, rfl, rfl, rfl⟩

/-- C17: when the path id matches a record and the write succeeds, the route
answers 200 with the merged record and writes it in the record's place; in the
merged record every field absent from the body has the stored value and every
field the body supplies with a truthy value has the supplied value; the body
`{status:"completed"}` on `{title:"Original", description:"Keep me",
tags:["tag"], status:"pending"}` gives the same record with status
`completed`. -/
theorem putTask_partial_update (store : Store) (id : String) (body : Body) (data : Json)
    (tasks : List Json) (index : Nat)
    (hread : store.read = .ok data) (htasks : tasksOf data = some tasks)
    (hfind : findIndex id tasks = some (some index)) (hwrite : store.writeError = none) :
    (∃ record, tasks.get? index = some record ∧
      (putTask store id body).response.status = 200 ∧
      (putTask store id body).response.body = mergeRecord record body ∧
      (putTask store id body).written
        = some (withTasks data (tasks.set index (mergeRecord record body))) ∧
      (∀ key, lookupMember body.entries key = none →
        get (mergeRecord record body) key = get record key) ∧
      (∀ key v, lookupMember body.entries key = some v → v.truthy = true →
        get (mergeRecord record body) key = some v)) ∧
    mergeRecord
        (.obj [("title", .str "Original"), ("description", .str "Keep me"),
          ("tags", .arr [.str "tag"]), ("status", .str "pending")])
        (.object [("status", .str "completed")])
      = .obj [("title", .str "Original"), ("description", .str "Keep me"),
          ("tags", .arr [.str "tag"]), ("status", .str "completed")] := by
  refine ⟨?_, rfl⟩
  obtain ⟨members, hget, _⟩ := findIndex_some id tasks index hfind
  refine ⟨.obj members, hget, ?_, ?_, ?_, ?_, ?_⟩
  · rw [putTask_found store id body data tasks index _ hread htasks hfind hget hwrite]
  · rw [putTask_found store id body data tasks index _ hread htasks hfind hget hwrite]
  · rw [putTask_found store id body data tasks index _ hread htasks hfind hget hwrite]
  · intro key hkey
    rw [get_mergeRecord, hkey]
    rfl
  · intro key v hkey _
    rw [get_mergeRecord, hkey]
    rfl

/-- Witness for C17: the stored task of the unit test on partial updates (id
`1` as a string) and the body `{status:"completed"}`. -/
theorem putTask_partial_update_witness :
    (∃ record, [originalTask].get? 0 = some record ∧
      (putTask (storeOf [originalTask]) "1"
        (.object [("status", .str "completed")])).response.status = 200 ∧
      (putTask (storeOf [originalTask]) "1"
        (.object [("status", .str "completed")])).response.body
          = mergeRecord record (.object [("status", .str "completed")]) ∧
      (putTask (storeOf [originalTask]) "1" (.object [("status", .str "completed")])).written
        = some (withTasks (.obj [("tasks", .arr [originalTask])])
            ([originalTask].set 0
              (mergeRecord record (.object [("status", .str "completed")])))) ∧
      (∀ key, lookupMember (Body.object [("status", .str "completed")]).entries key = none →
        get (mergeRecord record (.object [("status", .str "completed")])) key
          = get record key) ∧
      (∀ key v, lookupMember (Body.object [("status", .str "completed")]).entries key = some v →
        v.truthy = true →
        get (mergeRecord record (.object [("status", .str "completed")])) key = some v)) ∧
    mergeRecord
        (.obj [("title", .str "Original"), ("description", .str "Keep me"),
          ("tags", .arr [.str "tag"]), ("status", .str "pending")])
        (.object [("status", .str "completed")])
      = .obj [("title", .str "Original"), ("description", .str "Keep me"),
          ("tags", .arr [.str "tag"]), ("status", .str "completed")] :=
  putTask_partial_update (storeOf [originalTask]) "1" (.object [("status", .str "completed")])
    (.obj [("tasks", .arr [originalTask])]) [originalTask] 0 rfl rfl rfl rfl

/-- C18, at the failing input: with the stored id the number 1 and the path
id the string `1`, the route finds no record: it answers 404 and writes
nothing. -/
theorem putTask_numeric_id_not_matched :
    get numericIdTask "id" = some (.num 1) ∧
      findIndex "1" [numericIdTask] = some none ∧
      (putTask (storeOf [numericIdTask]) "1"
        (.object [("priority", .str "high")])).response.status = 404 ∧
      (putTask (storeOf [numericIdTask]) "1"
        (.object [("priority", .str "high")])).response.body
          = .obj [("message", .str "Task not found")] ∧
      (putTask (storeOf [numericIdTask]) "1" (.object [("priority", .str "high")])).written
        = none := by
  refine ⟨rfl, rfl, rfl, rfl, rfl⟩

/-- C19, at the failing input: for a path id that matches no record the route
answers 404 and writes nothing, but the message of its body is
`Task not found`, without the full stop of `Task not found.`. -/
theorem putTask_not_found_message :
    (putTask (storeOf [.obj [("id", .str "2"), ("title", .str "Another Task")]]) "1"
        (.object [("title", .str "Edited")])).response.status = 404 ∧
      (putTask (storeOf [.obj [("id", .str "2"), ("title", .str "Another Task")]]) "1"
        (.object [("title", .str "Edited")])).response.body
          = .obj [("message", .str "Task not found")] ∧
      (putTask (storeOf [.obj [("id", .str "2"), ("title", .str "Another Task")]]) "1"
        (.object [("title", .str "Edited")])).written = none ∧
      "Task not found" ≠ "Task not found." := by
  refine ⟨rfl, rfl, rfl, by decide⟩

/-- C20, at the failing input: a successful update is answered with status
200 and the merged record itself as the body: the body has the record's
`title` and neither a `message` nor a `task` property. -/
theorem putTask_success_body :
    (putTask (storeOf [originalTask]) "1"
        (.object [("title", .str "Edited Task Title")])).response.status = 200 ∧
      (putTask (storeOf [originalTask]) "1"
        (.object [("title", .str "Edited Task Title")])).response.body
          = .obj [("id", .str "1"), ("title", .str "Edited Task Title"),
              ("description", .str "Keep me"), ("priority", .str "medium"),
              ("dueDate", .str "2026-01-15"), ("tags", .arr [.str "tag"]),
              ("status", .str "pending")] ∧
      get (putTask (storeOf [originalTask]) "1"
        (.object [("title", .str "Edited Task Title")])).response.body "message" = none ∧
      get (putTask (storeOf [originalTask]) "1"
        (.object [("title", .str "Edited Task Title")])).response.body "task" = none := by
  refine ⟨rfl, rfl, rfl, rfl⟩

end Server

/-! ## The coverage server's errors, frame and invariants (C21 to C25) -/

namespace Server

/-- C21, at the failing inputs: a write that throws "Disk full" and a read
that throws "Corrupted file" are both answered with status 500 and the fixed
message `Error updating task`, not the error's own message. -/
theorem putTask_error_message_generic :
    ((putTask (storeFailingWrite [originalTask] { code := none, message := "Disk full" }) "1"
        (.object [("title", .str "Edited")])).response.status = 500 ∧
      (putTask (storeFailingWrite [originalTask] { code := none, message := "Disk full" }) "1"
        (.object [("title", .str "Edited")])).response.body
          = .obj [("message", .str "Error updating task")]) ∧
    ((putTask (storeFailingRead { code := none, message := "Corrupted file" }) "1"
        (.object [])).response.status = 500 ∧
      (putTask (storeFailingRead { code := none, message := "Corrupted file" }) "1"
        (.object [])).response.body = .obj [("message", .str "Error updating task")]) ∧
    "Error updating task" ≠ "Disk full" ∧ "Error updating task" ≠ "Corrupted file" := by
  refine ⟨⟨rfl, rfl⟩, ⟨rfl, rfl⟩, by decide, by decide⟩

/-- C22, at the failing input: a read that fails with `ENOENT` is answered
with status 500 and the message `Error updating task`, not with 404 and
`No tasks found to edit.`. -/
theorem putTask_missing_store_500 :
    (putTask (storeFailingRead { code := some "ENOENT", message := "File not found" }) "1"
        (.object [])).response.status = 500 ∧
      (putTask (storeFailingRead { code := some "ENOENT", message := "File not found" }) "1"
        (.object [])).response.body = .obj [("message", .str "Error updating task")] ∧
      (putTask (storeFailingRead { code := some "ENOENT", message := "File not found" }) "1"
        (.object [])).written = none := by
  refine ⟨rfl, rfl, rfl⟩

theorem tasksOf_obj (data : Json) (tasks : List Json) (h : tasksOf data = some tasks) :
    ∃ members, data = .obj members := by
  cases data with
  | obj members => exact ⟨members, rfl⟩
  | null => simp [tasksOf] at h
  | bool b => simp [tasksOf] at h
  | num n => simp [tasksOf] at h
  | str s => simp [tasksOf] at h
  | arr items => simp [tasksOf] at h

/-- The document after the assignment holds the new array under `tasks` and
its other members as before. -/
theorem withTasks_get (data : Json) (tasks newTasks : List Json)
    (h : tasksOf data = some tasks) :
    tasksOf (withTasks data newTasks) = some newTasks ∧
      ∀ key, key ≠ "tasks" → get (withTasks data newTasks) key = get data key := by
  obtain ⟨members, rfl⟩ := tasksOf_obj data tasks h
  constructor
  · show (match lookupMember (setMember members "tasks" (.arr newTasks)) "tasks" with
      | some (.arr ts) => some ts
      | _ => none) = some newTasks
    rw [lookupMember_setMember]
    rfl
  · intro key hkey
    show lookupMember (setMember members "tasks" (.arr newTasks)) key = lookupMember members key
    rw [lookupMember_setMember, if_neg (fun e => hkey e.symm)]

/-- C23: a successful update replaces the record in place: the collection in
the document written has the length of the loaded one, holds the merged record
at the position of the matched record and every other record, unchanged, at
its position; the other members of the document are as loaded. -/
theorem putTask_in_place (store : Store) (id : String) (body : Body) (data : Json)
    (tasks : List Json) (index : Nat)
    (hread : store.read = .ok data) (htasks : tasksOf data = some tasks)
    (hfind : findIndex id tasks = some (some index)) (hwrite : store.writeError = none) :
    ∃ record written newTasks, tasks.get? index = some record ∧
      (putTask store id body).written = some written ∧
      tasksOf written = some newTasks ∧
      newTasks.length = tasks.length ∧
      newTasks.get? index = some (mergeRecord record body) ∧
      (∀ j, j ≠ index → newTasks.get? j = tasks.get? j) ∧
      (∀ key, key ≠ "tasks" → get written key = get data key) := by
  obtain ⟨members, hget, _⟩ := findIndex_some id tasks index hfind
  have hlt : index < tasks.length := by
    by_contra hc
    rw [List.get?_eq_none.2 (Nat.le_of_not_lt hc)] at hget
    exact Option.noConfusion hget
  obtain ⟨w1, w2⟩ := withTasks_get data tasks
    (tasks.set index (mergeRecord (.obj members) body)) htasks
  refine ⟨.obj members, _, _, hget, ?_, w1, ?_, ?_, ?_, w2⟩
  · rw [putTask_found store id body data tasks index _ hread htasks hfind hget hwrite]
  · simp
  · simp [List.get?_eq_getElem?, hlt]
  · intro j hj
    simp [List.get?_eq_getElem?, List.getElem?_set, Ne.symm hj]

/-- Witness for C23: the second of three stored tasks is updated. -/
theorem putTask_in_place_witness :
    ∃ record written newTasks,
      [keepTask, originalTask, numericIdTask].get? 1 = some record ∧
      (putTask (storeOf [keepTask, originalTask, numericIdTask]) "1"
        (.object [("status", .str "completed")])).written = some written ∧
      tasksOf written = some newTasks ∧
      newTasks.length = [keepTask, originalTask, numericIdTask].length ∧
      newTasks.get? 1 = some (mergeRecord record (.object [("status", .str "completed")])) ∧
      (∀ j, j ≠ 1 → newTasks.get? j = [keepTask, originalTask, numericIdTask].get? j) ∧
      (∀ key, key ≠ "tasks" →
        get written key = get (.obj [("tasks", .arr [keepTask, originalTask, numericIdTask])]) key) :=
  putTask_in_place (storeOf [keepTask, originalTask, numericIdTask]) "1"
    (.object [("status", .str "completed")])
    (.obj [("tasks", .arr [keepTask, originalTask, numericIdTask])])
    [keepTask, originalTask, numericIdTask] 1 rfl rfl rfl rfl

/-- Counterexample to C24: a body that carries `id` and `createdAt` replaces
both in the record written. -/
theorem putTask_body_id_replaces :
    get datedTask "id" = some (.str "1") ∧
      get datedTask "createdAt" = some (.str "2026-01-01T00:00:00.000Z") ∧
      (putTask (storeOf [datedTask]) "1"
        (.object [("id", .str "9"), ("createdAt", .str "2030-12-31")])).response.status = 200 ∧
      (putTask (storeOf [datedTask]) "1"
        (.object [("id", .str "9"), ("createdAt", .str "2030-12-31")])).written
          = some (.obj [("tasks", .arr [.obj [("id", .str "9"), ("title", .str "Original"),
              ("createdAt", .str "2030-12-31")]])]) ∧
      "9" ≠ "1" ∧ "2030-12-31" ≠ "2026-01-01T00:00:00.000Z" := by
  refine ⟨rfl, rfl, rfl, rfl, by decide, by decide⟩

/-- C24, amended: on a successful update the record written has the stored
`id` when the body carries no `id`, and the stored `createdAt` when the body
carries no `createdAt`; an `id` or `createdAt` carried by the body is the one
written. -/
theorem putTask_id_createdAt (store : Store) (id : String) (body : Body) (data : Json)
    (tasks : List Json) (index : Nat)
    (hread : store.read = .ok data) (htasks : tasksOf data = some tasks)
    (hfind : findIndex id tasks = some (some index)) (hwrite : store.writeError = none) :
    ∃ record, tasks.get? index = some record ∧
      (putTask store id body).written
        = some (withTasks data (tasks.set index (mergeRecord record body))) ∧
      (∀ key, key = "id" ∨ key = "createdAt" →
        (lookupMember body.entries key = none →
          get (mergeRecord record body) key = get record key) ∧
        (∀ v, lookupMember body.entries key = some v →
          get (mergeRecord record body) key = some v)) ∧
      (lookupMember body.entries "id" = none →
        get (mergeRecord record body) "id" = some (.str id)) := by
  obtain ⟨members, hget, hid⟩ := findIndex_some id tasks index hfind
  refine ⟨.obj members, hget, ?_, ?_, ?_⟩
  · rw [putTask_found store id body data tasks index _ hread htasks hfind hget hwrite]
  · intro key _
    constructor
    · intro hkey
      rw [get_mergeRecord, hkey]
      rfl
    · intro v hkey
      rw [get_mergeRecord, hkey]
      rfl
  · intro hkey
    rw [get_mergeRecord, hkey]
    exact hid

/-- Witness for C24, amended: a body with a new title only. -/
theorem putTask_id_createdAt_witness :
    ∃ record, [datedTask].get? 0 = some record ∧
      (putTask (storeOf [datedTask]) "1" (.object [("title", .str "Renamed")])).written
        = some (withTasks (.obj [("tasks", .arr [datedTask])])
            ([datedTask].set 0 (mergeRecord record (.object [("title", .str "Renamed")])))) ∧
      (∀ key, key = "id" ∨ key = "createdAt" →
        (lookupMember (Body.object [("title", .str "Renamed")]).entries key = none →
          get (mergeRecord record (.object [("title", .str "Renamed")])) key
            = get record key) ∧
        (∀ v, lookupMember (Body.object [("title", .str "Renamed")]).entries key = some v →
          get (mergeRecord record (.object [("title", .str "Renamed")])) key = some v)) ∧
      (lookupMember (Body.object [("title", .str "Renamed")]).entries "id" = none →
        get (mergeRecord record (.object [("title", .str "Renamed")])) "id"
          = some (.str "1")) :=
  putTask_id_createdAt (storeOf [datedTask]) "1" (.object [("title", .str "Renamed")])
    (.obj [("tasks", .arr [datedTask])]) [datedTask] 0 rfl rfl rfl rfl

/-- Counterexample to C25: a body with the one-character title `x` is written
as it is. -/
theorem putTask_writes_short_title :
    (putTask (storeOf [originalTask]) "1" (.object [("title", .str "x")])).response.status
        = 200 ∧
      (putTask (storeOf [originalTask]) "1" (.object [("title", .str "x")])).written
        = some (.obj [("tasks", .arr [.obj [("id", .str "1"), ("title", .str "x"),
            ("description", .str "Keep me"), ("priority", .str "medium"),
            ("dueDate", .str "2026-01-15"), ("tags", .arr [.str "tag"]),
            ("status", .str "pending")]])]) ∧
      jsLength "x" < 3 := by
  refine ⟨rfl, rfl, by decide⟩

/-- C25, amended: the handler writes the fields of the body as they come;
when the body is a payload that `validatePayload` accepted, the fields of the
record written are those of the payload, and they meet the field constraints
(title 3 to 100 characters, description at most 500, priority and status in
their lists, due date non-empty and parsing, 1 to 10 tags of 2 to 20
characters each). -/
theorem putTask_validated_payload (env : Env) (p : Payload) (store : Store) (id : String)
    (data : Json) (tasks : List Json) (index : Nat)
    (hvalid : (validatePayload env p).valid = true)
    (hread : store.read = .ok data) (htasks : tasksOf data = some tasks)
    (hfind : findIndex id tasks = some (some index)) (hwrite : store.writeError = none) :
    ∃ record, tasks.get? index = some record ∧
      (putTask store id (payloadBody p)).written
        = some (withTasks data (tasks.set index (mergeRecord record (payloadBody p)))) ∧
      get (mergeRecord record (payloadBody p)) "title" = some (.str p.title) ∧
      get (mergeRecord record (payloadBody p)) "description" = some (.str p.description) ∧
      get (mergeRecord record (payloadBody p)) "priority" = some (.str p.priority) ∧
      get (mergeRecord record (payloadBody p)) "status" = some (.str p.status) ∧
      get (mergeRecord record (payloadBody p)) "dueDate" = some (.str p.dueDate) ∧
      get (mergeRecord record (payloadBody p)) "tags" = some (.arr (p.tags.map Json.str)) ∧
      meetsConstraints env p := by
  obtain ⟨members, hget, _⟩ := findIndex_some id tasks index hfind
  refine ⟨.obj members, hget, ?_, ?_, ?_, ?_, ?_, ?_, ?_,
    (valid_iff_meetsConstraints env p).1 hvalid⟩
  · rw [putTask_found store id _ data tasks index _ hread htasks hfind hget hwrite]
  all_goals
    rw [get_mergeRecord]
    rfl

/-- Witness for C25, amended: the base payload of the self-check sent for the
stored task `1`. -/
theorem putTask_validated_payload_witness :
    ∃ record, [originalTask].get? 0 = some record ∧
      (putTask (storeOf [originalTask]) "1" (payloadBody basePayload)).written
        = some (withTasks (.obj [("tasks", .arr [originalTask])])
            ([originalTask].set 0 (mergeRecord record (payloadBody basePayload)))) ∧
      get (mergeRecord record (payloadBody basePayload)) "title"
        = some (.str basePayload.title) ∧
      get (mergeRecord record (payloadBody basePayload)) "description"
        = some (.str basePayload.description) ∧
      get (mergeRecord record (payloadBody basePayload)) "priority"
        = some (.str basePayload.priority) ∧
      get (mergeRecord record (payloadBody basePayload)) "status"
        = some (.str basePayload.status) ∧
      get (mergeRecord record (payloadBody basePayload)) "dueDate"
        = some (.str basePayload.dueDate) ∧
      get (mergeRecord record (payloadBody basePayload)) "tags"
        = some (.arr (basePayload.tags.map Json.str)) ∧
      meetsConstraints sampleEnv basePayload :=
  putTask_validated_payload sampleEnv basePayload (storeOf [originalTask]) "1"
    (.obj [("tasks", .arr [originalTask])]) [originalTask] 0 (by decide) rfl rfl rfl rfl

end Server

/-! ## Tag invariant, response handler, trimming, self-check and edit mode (C26 to C30) -/

/-- C26: an edit tag list without duplicates has none after any single
action: an add-tag (any text typed, then Enter), a remove-last (Backspace), a
pill removal at any index, or any other step of the widget; hence on a page
with the edit form every tag list reached from `prepareEditForm` on a task
whose tags are duplicate-free (or not an array) is duplicate-free. -/
theorem editTags_nodup_preserved (env : Env) :
    (∀ s text, s.editTags.Nodup → (addTag env text s).editTags.Nodup) ∧
      (∀ s, s.editTags.Nodup → (removeLast env s).editTags.Nodup) ∧
      (∀ s k, s.editTags.Nodup → (removePillClick env k s).state.editTags.Nodup) ∧
      (∀ s a, s.editTags.Nodup → (step env s a).editTags.Nodup) ∧
      (∀ task s0 actions, env.editForm = true →
        (∀ tags, task.tags = some tags → tags.Nodup) →
        (run env (prepareEditForm env task s0) actions).editTags.Nodup) := by
  refine ⟨fun s text h => run_nodup env _ s h, fun s h => run_nodup env _ s h,
    fun s k h => step_nodup env s (.clickRemove k) h, fun s a h => step_nodup env s a h, ?_⟩
  intro task s0 actions hform htask
  apply run_nodup
  rw [prepareEditForm_editTags env task s0 hform]
  cases ht : task.tags with
  | none => exact List.nodup_nil
  | some tags => exact htask tags ht

/-- Witness for C26: the tag `sample` of the sample task, then `new` added. -/
theorem editTags_nodup_preserved_witness :
    (addTag sampleEnv "new" (prepareEditForm sampleEnv sampleTask initialState)).editTags.Nodup :=
  (editTags_nodup_preserved sampleEnv).1 _ "new" (by decide)

/-- C27, at the failing input: for the response text `null`, which
`JSON.parse` accepts, `parseResponse` returns `null` and the handler ends by
the exception of reading `response.message`, with no alert, whatever the
status. -/
theorem onload_null_body_throws :
    parseResponse sampleEnv "null" = Json.null ∧
      ((onload sampleEnv 200 "null" sampleEditing).threw = true ∧
        alerts (onload sampleEnv 200 "null" sampleEditing).effects = []) ∧
      ((onload sampleEnv 500 "null" sampleEditing).threw = true ∧
        alerts (onload sampleEnv 500 "null" sampleEditing).effects = []) := by
  refine ⟨rfl, ⟨rfl, rfl⟩, ⟨rfl, rfl⟩⟩

/-- The message of a rejection is that of rule `k` exactly when rule `k` is
the lowest rule met. -/
theorem message_eq_ruleMessage_iff (env : Env) (p : Payload) (k : Nat) (hk1 : 1 ≤ k)
    (hk : k ≤ 11) :
    (validatePayload env p).message = some (ruleMessage k) ↔
      ruleCondition env p k = true ∧ ∀ j, 1 ≤ j → j < k → ruleCondition env p j = false := by
  constructor
  · intro hm
    have hex : ∃ i, ruleCondition env p i = true := by
      by_contra hc
      have hall : ∀ i, ruleCondition env p i = false := by
        intro i
        cases h : ruleCondition env p i with
        | false => rfl
        | true => exact absurd ⟨i, h⟩ hc
      rw [validatePayload_ok env p hall] at hm
      exact Option.noConfusion hm
    obtain ⟨i, hi, hlow, hres⟩ := validatePayload_least env p hex
    have hr := ruleCondition_range env p i hi
    rw [hres] at hm
    have hik : i = k := ruleMessage_injective i k hr.1 hr.2 hk1 hk (Option.some.inj hm)
    subst hik
    exact ⟨hi, hlow⟩
  · rintro ⟨hi, hlow⟩
    rw [validatePayload_rule env p k hi hlow]
    rfl

theorem assemblePayload_title (env : Env) (s : State) :
    (assemblePayload env s).title = jsTrim s.formTitle := by
  show jsTrim (if truthy s.formTitle = true then s.formTitle else "") = _
  by_cases h : s.formTitle = ""
  · rw [h]; rfl
  · rw [if_pos ((truthy_iff _).2 h)]

theorem assemblePayload_description (env : Env) (s : State) :
    (assemblePayload env s).description = jsTrim s.formDescription := by
  show jsTrim (if truthy s.formDescription = true then s.formDescription else "") = _
  by_cases h : s.formDescription = ""
  · rw [h]; rfl
  · rw [if_pos ((truthy_iff _).2 h)]

/-- A text of white space only trims to the empty text. -/
theorem jsTrim_whitespace (t : String) (h : ∀ c ∈ t.data, isTrimChar c = true) :
    jsTrim t = "" := by
  unfold jsTrim
  rw [List.dropWhile_eq_nil_iff.2 h]
  rfl

/-- White space around a text does not change what it trims to. -/
theorem jsTrim_padded (l r : List Char) (t : String)
    (hl : ∀ c ∈ l, isTrimChar c = true) (hr : ∀ c ∈ r, isTrimChar c = true) :
    jsTrim (String.mk (l ++ t.data ++ r)) = jsTrim t := by
  unfold jsTrim
  congr 2
  show List.dropWhile isTrimChar (List.dropWhile isTrimChar (l ++ t.data ++ r)).reverse = _
  rw [List.append_assoc, List.dropWhile_append_of_pos hl, List.dropWhile_append]
  have hr0 : List.dropWhile isTrimChar r = [] := List.dropWhile_eq_nil_iff.2 hr
  by_cases hemp : (List.dropWhile isTrimChar t.data).isEmpty = true
  · rw [if_pos hemp, hr0]
    have : List.dropWhile isTrimChar t.data = [] := List.isEmpty_iff.1 hemp
    rw [this]
  · rw [if_neg hemp, List.reverse_append]
    have hrev : ∀ c ∈ r.reverse, isTrimChar c = true := fun c hc => hr c (List.mem_reverse.1 hc)
    rw [List.dropWhile_append_of_pos hrev]

/-- What `handleSubmit` alerts, with a task selected: the message of the
validation, if any. -/
theorem handleSubmit_alerts (env : Env) (s : State) (task : Task)
    (hsel : s.selectedTask = some task) :
    alerts (handleSubmit env s).effects
      = match (validatePayload env (assemblePayload env s)).message with
        | some m => [Json.str m]
        | none => [] := by
  cases hv : validatePayload env (assemblePayload env s) with
  | ok =>
    rw [handleSubmit_ok env s task hsel hv]
    rfl
  | invalid message field =>
    rw [handleSubmit_invalid env s task message field hsel hv]
    cases field <;> rfl

theorem handleSubmit_alerts_eq (env : Env) (s : State) (task : Task)
    (hsel : s.selectedTask = some task) (m : String) :
    alerts (handleSubmit env s).effects = [Json.str m] ↔
      (validatePayload env (assemblePayload env s)).message = some m := by
  rw [handleSubmit_alerts env s task hsel]
  cases (validatePayload env (assemblePayload env s)).message with
  | none => simp
  | some m2 => simp

theorem handleSubmit_effects_congr (env : Env) (s s2 : State)
    (hsel : s2.selectedTask = s.selectedTask)
    (hp : assemblePayload env s2 = assemblePayload env s) :
    (handleSubmit env s2).effects = (handleSubmit env s).effects := by
  unfold handleSubmit
  rw [hsel, hp]
  cases s.selectedTask with
  | none => rfl
  | some task =>
    simp only
    cases validatePayload env (assemblePayload env s) <;> rfl

theorem assemblePayload_congr (env : Env) (s s2 : State)
    (h1 : jsTrim s2.formTitle = jsTrim s.formTitle)
    (h2 : jsTrim s2.formDescription = jsTrim s.formDescription)
    (h3 : s2.formPriority = s.formPriority) (h4 : s2.formStatus = s.formStatus)
    (h5 : s2.formDueDate = s.formDueDate) (h6 : s2.editTags = s.editTags) :
    assemblePayload env s2 = assemblePayload env s := by
  have t2 := assemblePayload_title env s2
  have t1 := assemblePayload_title env s
  have d2 := assemblePayload_description env s2
  have d1 := assemblePayload_description env s
  have p : (assemblePayload env s2).priority = (assemblePayload env s).priority := by
    show env.toLowerCase _ = env.toLowerCase _
    rw [h3]
  have q : (assemblePayload env s2).status = (assemblePayload env s).status := by
    show env.toLowerCase _ = env.toLowerCase _
    rw [h4]
  have u : (assemblePayload env s2).dueDate = (assemblePayload env s).dueDate := h5
  have v : (assemblePayload env s2).tags = (assemblePayload env s).tags := h6
  cases hp : assemblePayload env s2 with
  | mk a b c d e f =>
    cases hq : assemblePayload env s with
    | mk a2 b2 c2 d2' e2 f2 =>
      rw [hp] at t2 d2 p q u v
      rw [hq] at t1 d1 p q u v
      simp only at t1 t2 d1 d2 p q u v
      rw [t2, t1, d2, d1, h1, h2, p, q, u, v]

/-- C28: with a task selected, `handleSubmit` validates the trimmed title
and description: a title of white space only is answered with "Title is
required", a title whose trimmed length is 1 or 2 with "Title must be at least
3 characters"; "Title must not exceed 100 characters" is reported exactly when
the trimmed title is longer than 100, "Description must not exceed 500
characters" exactly when the trimmed title has 3 to 100 characters and the
trimmed description more than 500; white space put around the title and the
description changes nothing of what the handler does. -/
theorem handleSubmit_trims (env : Env) (s : State) (task : Task)
    (hsel : s.selectedTask = some task) :
    ((∀ c ∈ s.formTitle.data, isTrimChar c = true) →
        alerts (handleSubmit env s).effects = [Json.str "Title is required"]) ∧
      (jsLength (jsTrim s.formTitle) = 1 ∨ jsLength (jsTrim s.formTitle) = 2 →
        alerts (handleSubmit env s).effects
          = [Json.str "Title must be at least 3 characters"]) ∧
      (alerts (handleSubmit env s).effects = [Json.str "Title must not exceed 100 characters"]
        ↔ jsLength (jsTrim s.formTitle) > 100) ∧
      (alerts (handleSubmit env s).effects
          = [Json.str "Description must not exceed 500 characters"]
        ↔ (3 ≤ jsLength (jsTrim s.formTitle) ∧ jsLength (jsTrim s.formTitle) ≤ 100) ∧
          jsLength (jsTrim s.formDescription) > 500) ∧
      (∀ l r l2 r2 : List Char,
        (∀ c ∈ l, isTrimChar c = true) → (∀ c ∈ r, isTrimChar c = true) →
        (∀ c ∈ l2, isTrimChar c = true) → (∀ c ∈ r2, isTrimChar c = true) →
        (handleSubmit env
          { s with formTitle := String.mk (l ++ s.formTitle.data ++ r),
                   formDescription := String.mk (l2 ++ s.formDescription.data ++ r2) }).effects
          = (handleSubmit env s).effects) := by
  have ht := assemblePayload_title env s
  have hd := assemblePayload_description env s
  have hzero : ∀ t : String, t = "" → jsLength t = 0 := fun t => (jsLength_eq_zero_iff t).2
  refine ⟨?_, ?_, ?_, ?_, ?_⟩
  · intro hws
    rw [handleSubmit_alerts_eq env s task hsel]
    refine (message_eq_ruleMessage_iff env _ 1 (by omega) (by omega)).2 ⟨?_, ?_⟩
    · show decide ((assemblePayload env s).title = "") = true
      rw [ht, jsTrim_whitespace _ hws]
      rfl
    · intro j h1 h2
      omega
  · intro hlen
    rw [handleSubmit_alerts_eq env s task hsel]
    refine (message_eq_ruleMessage_iff env _ 2 (by omega) (by omega)).2 ⟨?_, ?_⟩
    · show decide (jsLength (assemblePayload env s).title < 3) = true
      rw [ht]
      exact decide_eq_true (by omega)
    · intro j h1 h2
      interval_cases j
      show decide ((assemblePayload env s).title = "") = false
      rw [ht]
      exact decide_eq_false (fun e => by have := hzero _ e; omega)
  · rw [handleSubmit_alerts_eq env s task hsel]
    rw [show "Title must not exceed 100 characters" = ruleMessage 3 from rfl,
      message_eq_ruleMessage_iff env _ 3 (by omega) (by omega)]
    constructor
    · rintro ⟨h3, _⟩
      have h3b : decide (jsLength (assemblePayload env s).title > 100) = true := h3
      rw [ht] at h3b
      exact of_decide_eq_true h3b
    · intro hlen
      refine ⟨?_, ?_⟩
      · show decide (jsLength (assemblePayload env s).title > 100) = true
        rw [ht]
        exact decide_eq_true hlen
      · intro j h1 h2
        interval_cases j
        · show decide ((assemblePayload env s).title = "") = false
          rw [ht]
          exact decide_eq_false (fun e => by have := hzero _ e; omega)
        · show decide (jsLength (assemblePayload env s).title < 3) = false
          rw [ht]
          exact decide_eq_false (by omega)
  · rw [handleSubmit_alerts_eq env s task hsel]
    rw [show "Description must not exceed 500 characters" = ruleMessage 4 from rfl,
      message_eq_ruleMessage_iff env _ 4 (by omega) (by omega)]
    constructor
    · rintro ⟨h4, hlow⟩
      have h4b : decide (jsLength (assemblePayload env s).description > 500) = true := h4
      have h2b : decide (jsLength (assemblePayload env s).title < 3) = false :=
        hlow 2 (by omega) (by omega)
      have h3b : decide (jsLength (assemblePayload env s).title > 100) = false :=
        hlow 3 (by omega) (by omega)
      rw [hd] at h4b
      rw [ht] at h2b h3b
      have a4 := of_decide_eq_true h4b
      have a2 := of_decide_eq_false h2b
      have a3 := of_decide_eq_false h3b
      exact ⟨⟨by omega, by omega⟩, a4⟩
    · rintro ⟨⟨a1, a2⟩, a4⟩
      refine ⟨?_, ?_⟩
      · show decide (jsLength (assemblePayload env s).description > 500) = true
        rw [hd]
        exact decide_eq_true a4
      · intro j h1 h2
        interval_cases j
        · show decide ((assemblePayload env s).title = "") = false
          rw [ht]
          exact decide_eq_false (fun e => by have := hzero _ e; omega)
        · show decide (jsLength (assemblePayload env s).title < 3) = false
          rw [ht]
          exact decide_eq_false (by omega)
        · show decide (jsLength (assemblePayload env s).title > 100) = false
          rw [ht]
          exact decide_eq_false (by omega)
  · intro l r l2 r2 hl hr hl2 hr2
    apply handleSubmit_effects_congr
    · rfl
    · exact assemblePayload_congr env s _ (jsTrim_padded l r s.formTitle hl hr)
        (jsTrim_padded l2 r2 s.formDescription hl2 hr2) rfl rfl rfl rfl

/-- Witness for C28: the sample task in edit mode with a title of blanks. -/
theorem handleSubmit_trims_witness :
    alerts (handleSubmit sampleEnv { sampleEditing with formTitle := "   " }).effects
      = [Json.str "Title is required"] :=
  (handleSubmit_trims sampleEnv { sampleEditing with formTitle := "   " } sampleTask
    (by decide)).1 (by decide)

theorem jsLength_append (a b : String) : jsLength (a ++ b) = jsLength a + jsLength b := by
  simp [jsLength, String.data_append]

theorem jsLength_intercalate_go (acc s : String) (n : Nat) :
    jsLength (String.intercalate.go acc s (List.replicate n "")) = jsLength acc + n * jsLength s := by
  induction n generalizing acc with
  | zero => simp [String.intercalate.go]
  | succ n ih =>
    rw [List.replicate_succ, String.intercalate.go, ih, jsLength_append, jsLength_append]
    have : jsLength "" = 0 := rfl
    rw [this]
    ring

/-- The length of `new Array(n).join(separator)`. -/
theorem jsLength_arrayJoin (n : Nat) (s : String) :
    jsLength (arrayJoin n s) = (n - 1) * jsLength s := by
  cases n with
  | zero => simp [arrayJoin, String.intercalate, jsLength]
  | succ n =>
    show jsLength (String.intercalate.go "" s (List.replicate n "")) = _
    rw [jsLength_intercalate_go]
    have : jsLength "" = 0 := rfl
    rw [this]
    simp

/-- Only rule 8 reads the host. -/
theorem ruleCondition_env (env other : Env) (p : Payload) (j : Nat) (hj : j ≠ 8) :
    ruleCondition env p j = ruleCondition other p j := by
  unfold ruleCondition
  split <;> first | rfl | exact absurd rfl hj

/-- Each scenario of the self-check is rejected by the rule of its position. -/
theorem selfCheck_scenario (env : Env) (hgood : env.dateParses "2030-01-01" = true)
    (hbad : env.dateParses "not-a-date" = false) (i : Nat) (hi1 : 1 ≤ i) (hi : i ≤ 11) :
    ∃ scenario, scenarios.get? (i - 1) = some scenario ∧
      validatePayload env (mergePayload basePayload scenario)
        = .invalid (ruleMessage i) (ruleField env i) := by
  have hT : jsLength (arrayJoin 102 "T") = 101 := by rw [jsLength_arrayJoin]; decide
  have hD : jsLength (arrayJoin 502 "d") = 501 := by rw [jsLength_arrayJoin]; decide
  have hTne : ¬ arrayJoin 102 "T" = "" := by
    intro e
    have := (jsLength_eq_zero_iff _).2 e
    omega
  have htitle : (mergePayload basePayload
      { noOverrides with title := some (arrayJoin 102 "T") }).title = arrayJoin 102 "T" := by
    simp only [mergePayload, Option.getD_some]
  have hdesc : (mergePayload basePayload
      { noOverrides with description := some (arrayJoin 502 "d") }).description
        = arrayJoin 502 "d" := by
    simp only [mergePayload, Option.getD_some]
  interval_cases i
  · refine ⟨_, rfl, validatePayload_rule env _ 1
      (by rw [ruleCondition_env env sampleEnv _ _ (by decide)]; decide) ?_⟩
    intro j h1 h2
    omega
  · refine ⟨_, rfl, validatePayload_rule env _ 2
      (by rw [ruleCondition_env env sampleEnv _ _ (by decide)]; decide) ?_⟩
    intro j h1 h2
    interval_cases j
    rw [ruleCondition_env env sampleEnv _ _ (by decide)]; decide
  · refine ⟨{ noOverrides with title := some (arrayJoin 102 "T") }, rfl,
      validatePayload_rule env _ 3 ?_ ?_⟩
    · simp only [ruleCondition, htitle, hT]
      decide
    · intro j h1 h2
      interval_cases j
      · simp only [ruleCondition, htitle]
        exact decide_eq_false hTne
      · simp only [ruleCondition, htitle, hT]
        decide
  · refine ⟨{ noOverrides with description := some (arrayJoin 502 "d") }, rfl,
      validatePayload_rule env _ 4 ?_ ?_⟩
    · simp only [ruleCondition, hdesc, hD]
      decide
    · intro j h1 h2
      interval_cases j <;> (rw [ruleCondition_env env sampleEnv _ _ (by decide)]; decide)
  · refine ⟨_, rfl, validatePayload_rule env _ 5
      (by rw [ruleCondition_env env sampleEnv _ _ (by decide)]; decide) ?_⟩
    intro j h1 h2
    interval_cases j <;> (rw [ruleCondition_env env sampleEnv _ _ (by decide)]; decide)
  · refine ⟨_, rfl, validatePayload_rule env _ 6
      (by rw [ruleCondition_env env sampleEnv _ _ (by decide)]; decide) ?_⟩
    intro j h1 h2
    interval_cases j <;> (rw [ruleCondition_env env sampleEnv _ _ (by decide)]; decide)
  · refine ⟨_, rfl, validatePayload_rule env _ 7
      (by rw [ruleCondition_env env sampleEnv _ _ (by decide)]; decide) ?_⟩
    intro j h1 h2
    interval_cases j <;> (rw [ruleCondition_env env sampleEnv _ _ (by decide)]; decide)
  · refine ⟨_, rfl, validatePayload_rule env _ 8 ?_ ?_⟩
    · show (!env.dateParses "not-a-date") = true
      rw [hbad]; rfl
    · intro j h1 h2
      interval_cases j <;> (rw [ruleCondition_env env sampleEnv _ _ (by decide)]; decide)
  · refine ⟨_, rfl, validatePayload_rule env _ 9
      (by rw [ruleCondition_env env sampleEnv _ _ (by decide)]; decide) ?_⟩
    intro j h1 h2
    interval_cases j <;>
      first
        | (rw [ruleCondition_env env sampleEnv _ _ (by decide)]; decide)
        | (show (!env.dateParses "2030-01-01") = false
           rw [hgood]; rfl)
  · refine ⟨_, rfl, validatePayload_rule env _ 10
      (by rw [ruleCondition_env env sampleEnv _ _ (by decide)]; decide) ?_⟩
    intro j h1 h2
    interval_cases j <;>
      first
        | (rw [ruleCondition_env env sampleEnv _ _ (by decide)]; decide)
        | (show (!env.dateParses "2030-01-01") = false
           rw [hgood]; rfl)
  · refine ⟨_, rfl, validatePayload_rule env _ 11
      (by rw [ruleCondition_env env sampleEnv _ _ (by decide)]; decide) ?_⟩
    intro j h1 h2
    interval_cases j <;>
      first
        | (rw [ruleCondition_env env sampleEnv _ _ (by decide)]; decide)
        | (show (!env.dateParses "2030-01-01") = false
           rw [hgood]; rfl)

theorem basePayload_ok (env : Env) (hgood : env.dateParses "2030-01-01" = true) :
    validatePayload env basePayload = .ok := by
  apply validatePayload_ok
  intro i
  by_cases h8 : i = 8
  · subst h8
    show (!env.dateParses "2030-01-01") = false
    rw [hgood]; rfl
  · rw [ruleCondition_env env sampleEnv _ _ h8]
    by_cases hle : i ≤ 11
    · interval_cases i <;> decide
    · unfold ruleCondition
      split <;> first | omega | rfl

/-- C29: on a host whose `Date` parses `2030-01-01` and rejects
`not-a-date`, `validatePayload` accepts the base payload of the self-check,
and for each `i` from 1 to 11 the `i`-th scenario merged over the base payload
by `mergePayload` is rejected with exactly the message of rule `i`; the
messages of the eleven calls are, in order, those of the validation order;
`mergePayload` returns a new payload, equal to the base payload when nothing
is overridden, and each call starts from the same base payload. -/
theorem selfCheck_messages (env : Env) (hgood : env.dateParses "2030-01-01" = true)
    (hbad : env.dateParses "not-a-date" = false) :
    validatePayload env basePayload = .ok ∧
      scenarios.length = 11 ∧
      (∀ i, 1 ≤ i → i ≤ 11 → ∃ scenario, scenarios.get? (i - 1) = some scenario ∧
        (validatePayload env (mergePayload basePayload scenario)).valid = false ∧
        (validatePayload env (mergePayload basePayload scenario)).message
          = some (ruleMessage i)) ∧
      (runValidationSelfCheck env).map Validation.message =
        [some "Title is required", some "Title must be at least 3 characters",
         some "Title must not exceed 100 characters",
         some "Description must not exceed 500 characters", some "Select a valid priority",
         some "Select a valid status", some "Due date is required",
         some "Due date is invalid", some "Please add at least one tag",
         some "Maximum 10 tags allowed", some "Tags must be 2-20 characters"] ∧
      mergePayload basePayload noOverrides = basePayload := by
  refine ⟨basePayload_ok env hgood, rfl, ?_, ?_, rfl⟩
  · intro i h1 h2
    obtain ⟨scenario, hget, hres⟩ := selfCheck_scenario env hgood hbad i h1 h2
    exact ⟨scenario, hget, by rw [hres]; rfl, by rw [hres]; rfl⟩
  · have h := fun i h1 h2 => selfCheck_scenario env hgood hbad i h1 h2
    obtain ⟨s1, g1, r1⟩ := h 1 (by omega) (by omega)
    obtain ⟨s2, g2, r2⟩ := h 2 (by omega) (by omega)
    obtain ⟨s3, g3, r3⟩ := h 3 (by omega) (by omega)
    obtain ⟨s4, g4, r4⟩ := h 4 (by omega) (by omega)
    obtain ⟨s5, g5, r5⟩ := h 5 (by omega) (by omega)
    obtain ⟨s6, g6, r6⟩ := h 6 (by omega) (by omega)
    obtain ⟨s7, g7, r7⟩ := h 7 (by omega) (by omega)
    obtain ⟨s8, g8, r8⟩ := h 8 (by omega) (by omega)
    obtain ⟨s9, g9, r9⟩ := h 9 (by omega) (by omega)
    obtain ⟨s10, g10, r10⟩ := h 10 (by omega) (by omega)
    obtain ⟨s11, g11, r11⟩ := h 11 (by omega) (by omega)
    simp only [scenarios, Nat.sub_self, Nat.reduceSub, List.get?_cons_zero, List.get?_cons_succ,
      Option.some.injEq] at g1 g2 g3 g4 g5 g6 g7 g8 g9 g10 g11
    subst g1 g2 g3 g4 g5 g6 g7 g8 g9 g10 g11
    simp only [runValidationSelfCheck, scenarios, List.map, r1, r2, r3, r4, r5, r6, r7, r8, r9,
      r10, r11, Validation.message, ruleMessage]

/-- Witness for C29: the sample host. -/
theorem selfCheck_messages_witness : validatePayload sampleEnv basePayload = .ok :=
  (selfCheck_messages sampleEnv rfl rfl).1

theorem setEditMode_consistent (env : Env) (value : Bool) (s : State) :
    displayConsistent env (setEditMode env value s) := by
  unfold displayConsistent setEditMode
  cases hf : env.editForm <;> cases hd : env.detailSection <;> cases hb : env.editBtn <;>
    simp

theorem prepareEditForm_consistent (env : Env) (task : Task) (s : State)
    (h : env.editForm = true ∨ displayConsistent env s) :
    displayConsistent env (prepareEditForm env task s) := by
  unfold prepareEditForm
  cases hf : env.editForm with
  | true =>
    simp only [Bool.not_true, Bool.false_eq_true, if_false]
    exact setEditMode_consistent env false _
  | false =>
    simp only [Bool.not_false, if_true]
    rcases h with h | h
    · rw [hf] at h
      exact Bool.noConfusion h
    · exact h

theorem handleEditClick_consistent (env : Env) (s : State) (h : displayConsistent env s) :
    displayConsistent env (handleEditClick env s).state := by
  unfold handleEditClick
  split
  · exact h
  · split
    · exact setEditMode_consistent env true s
    · exact h

theorem runModeOps_consistent (env : Env) (ops : List ModeOp) (s : State)
    (h : displayConsistent env s) : displayConsistent env (runModeOps env s ops) := by
  induction ops generalizing s with
  | nil => exact h
  | cons op rest ih =>
    apply ih
    cases op with
    | setMode value => exact setEditMode_consistent env value s
    | prepare task => exact prepareEditForm_consistent env task s (Or.inr h)
    | exit => exact setEditMode_consistent env false s
    | editClick => exact handleEditClick_consistent env s h

/-- C30: the display agrees with `isEditing` after every `setEditMode` and
`exitEditMode`, after `prepareEditForm` on a page with the edit form, and it
keeps agreeing through every sequence of `setEditMode`, `prepareEditForm`,
`exitEditMode` and `handleEditClick`; with a task selected (and the form
present) `handleEditClick` enters edit mode and focuses the title without
requesting a submit when not editing, and requests a submit without touching
the state when editing. -/
theorem displayConsistent_always (env : Env) :
    (∀ s value, displayConsistent env (setEditMode env value s)) ∧
      (∀ s, displayConsistent env (exitEditMode env s)) ∧
      (∀ s task, env.editForm = true → displayConsistent env (prepareEditForm env task s)) ∧
      (∀ s ops, displayConsistent env s → displayConsistent env (runModeOps env s ops)) ∧
      (∀ s task, s.selectedTask = some task → env.editForm = true →
        (s.isEditing = false →
          handleEditClick env s =
            { state := setEditMode env true s,
              effects := [Effect.preventDefault, Effect.focus FieldRef.title],
              threw := false } ∧
          (handleEditClick env s).state.isEditing = true) ∧
        (s.isEditing = true →
          handleEditClick env s =
            { state := s, effects := [Effect.preventDefault, Effect.requestSubmit],
              threw := false })) := by
  refine ⟨fun s value => setEditMode_consistent env value s,
    fun s => setEditMode_consistent env false s,
    fun s task hform => prepareEditForm_consistent env task s (Or.inl hform),
    fun s ops h => runModeOps_consistent env ops s h, ?_⟩
  intro s task hsel hform
  constructor
  · intro hedit
    have h1 : handleEditClick env s =
        { state := setEditMode env true s,
          effects := [Effect.preventDefault, Effect.focus FieldRef.title],
          threw := false } := by
      unfold handleEditClick
      simp [hsel, hform, hedit]
    refine ⟨h1, ?_⟩
    rw [h1]
    exact setEditMode_isEditing env true s
  · intro hedit
    unfold handleEditClick
    simp [hsel, hform, hedit]

/-- Witness for C30: a click on the edit button with the sample task selected
and edit mode off. -/
theorem displayConsistent_always_witness :
    (handleEditClick sampleEnv
        (prepareEditForm sampleEnv sampleTask
          { initialState with selectedTask := some sampleTask })).state.isEditing = true :=
  (((displayConsistent_always sampleEnv).2.2.2.2
    (prepareEditForm sampleEnv sampleTask { initialState with selectedTask := some sampleTask })
    sampleTask (by decide) rfl).1 (by decide)).2

end TaskEdit
